import Mathlib

/-!
Shallow embedding of the query model of the `isagog-ai-cli` repository
(`src/isagog/model/kg_query.py` and `src/isagog/generator/sparql_generator.py`).

Modelling conventions, fixed once here:

* Python `Identifier`, `Variable` and `Value` are all subclasses of `str`;
  they are embedded as the tagged type `Term` whose payload is the underlying
  Python string (a `Variable` payload carries its leading `?`).  Python `==`
  between any two of them compares the underlying strings, which is what
  `Term.pyStr` exposes.  The tag `Term.val` covers both `Value` instances and
  plain strings: the code never distinguishes the two (every branch tests
  `isinstance(_, Variable)` / `isinstance(_, Identifier)` and treats the rest
  uniformly).
* Python dicts are embedded as insertion-ordered association lists
  (`Dict := List (String × DVal)`); assigning to an existing key replaces the
  value in place, which `dinsert` reproduces.  Serialized `Identifier` /
  `Variable` / `Value` objects appear in dicts as their underlying strings
  (`DVal.s`), matching Python dict equality, which is by string value for
  `str` subclasses.
* `random.randint` used to mint anonymous variable names is embedded as an
  injected counter `n : Nat`; the fresh name for counter `n` is
  `"?" ++ hex n`, mirroring `f'?{hex(value)}'` in `Variable.__new__`.
  Every operation that may mint a name threads the counter explicitly.
* Python exceptions are embedded as `Except String`; the string is the
  exception message (prefixed with the exception class name where the class
  itself is observable behaviour).
-/

/-- Hex digits of a natural number, mirroring Python `hex(n)` without the
`0x` prefix (our uses always prepend `"?0x"`). -/
def natHexDigits (n : Nat) : String :=
  String.mk (Nat.toDigits 16 n)

/-- The name minted for counter `n`, mirroring
`Variable.__new__` on an `int`: `f'?{hex(value)}'`. -/
def freshVarName (n : Nat) : String :=
  "?0x" ++ natHexDigits n

/-- `s.startswith(pre)` over the character list (structural, so proofs can
reduce it). -/
def pyStartsWith (s pre : String) : Bool :=
  pre.data.isPrefixOf s.data

/-- `s.endswith(suf)` over the character list. -/
def pyEndsWith (s suf : String) : Bool :=
  suf.data.isSuffixOf s.data

/-- Python `a < b` on characters (code points). -/
def pyCharsLT : List Char → List Char → Bool
  | [], [] => false
  | [], _ :: _ => true
  | _ :: _, [] => false
  | c :: cs, d :: ds =>
      if c.toNat < d.toNat then true
      else if c = d then pyCharsLT cs ds else false

/-- Python lexicographic string comparison `a > b` (by Unicode code points). -/
def pyStrGT (a b : String) : Bool :=
  pyCharsLT b.data a.data

/-- Decimal digit parsing for Python `int(str)` (structural). -/
def pyParseDigits : List Char → Option Nat → Option Nat
  | [], acc => acc
  | c :: cs, acc =>
      if c.isDigit then
        pyParseDigits cs (some ((acc.getD 0) * 10 + (c.toNat - 48)))
      else none

/-- Python `int(s)` on a decimal string, possibly signed. -/
def pyParseInt (s : String) : Option Int :=
  match s.data with
  | '-' :: rest => (pyParseDigits rest none).map (fun n => -(n : Int))
  | ds => (pyParseDigits ds none).map (fun n => (n : Int))

/-- `_SUBJVAR` in the source. -/
def SUBJVAR : String := "_subj"

/-- `_KINDVAR` in the source. -/
def KINDVAR : String := "_kind"

/-- `_SCOREVAR` in the source. -/
def SCOREVAR : String := "_score"

/-- `RDF_TYPE = Identifier(RDF.type)` in the source. -/
def RDF_TYPE : String := "http://www.w3.org/1999/02/22-rdf-syntax-ns#type"

/-- `DEFAULT_PREFIXES` in the source. -/
def DEFAULT_PREFIXES : List (String × String) :=
  [("rdf", "http://www.w3.org/2000/01/rdf-schema"),
   ("rdfs", "http://www.w3.org/2001/XMLSchema"),
   ("text", "http://jena.apache.org/text")]

/-- The three-way tagged union Identifier | Variable | Value.  All three are
Python `str` subclasses; the payload is the underlying string. -/
inductive Term where
  | id (s : String)
  | var (s : String)
  | val (s : String)
deriving DecidableEq, Repr

/-- `str(t)`: the underlying Python string of a term. -/
def Term.pyStr : Term → String
  | .id s => s
  | .var s => s
  | .val s => s

/-- Python truthiness of a term (a `str` subclass is falsy iff empty). -/
def Term.truthy (t : Term) : Bool :=
  t.pyStr != ""

/-- Python truthiness of an optional term (`None` is falsy). -/
def optTermTruthy : Option Term → Bool
  | none => false
  | some t => t.truthy

/-- `str(x)` where `x` is an optional term and `None` prints as `"None"`
(used in f-strings such as the clause-not-defined message). -/
def optTermPyStr : Option Term → String
  | none => "None"
  | some t => t.pyStr

/-- Python `==` between optional terms: `None` equals only `None`, and two
`str` subclasses compare by string value regardless of tag. -/
def optTermPyEq : Option Term → Option Term → Bool
  | none, none => true
  | some a, some b => a.pyStr = b.pyStr
  | _, _ => false

/-- The `Comparison` enum of the source. -/
inductive Comparison where
  | EXACT
  | KEYWORD
  | REGEX
  | SIMILARITY
  | GREATER
  | LESSER
  | ANY
deriving DecidableEq, Repr

/-- The `.value` string of each `Comparison` member. -/
def Comparison.value : Comparison → String
  | .EXACT => "exact_match"
  | .KEYWORD => "keyword_search"
  | .REGEX => "regex"
  | .SIMILARITY => "similarity"
  | .GREATER => "greater_than"
  | .LESSER => "lesser_than"
  | .ANY => "any"

/-- Value-to-member lookup of the enum. -/
def Comparison.ofValue : String → Option Comparison
  | "exact_match" => some .EXACT
  | "keyword_search" => some .KEYWORD
  | "regex" => some .REGEX
  | "similarity" => some .SIMILARITY
  | "greater_than" => some .GREATER
  | "lesser_than" => some .LESSER
  | "any" => some .ANY
  | _ => none

/-- Python `Comparison(x)` on a string: member lookup by value, raising
`ValueError` when the string names no member. -/
def Comparison.coerce (s : String) : Except String Comparison :=
  match Comparison.ofValue s with
  | some c => Except.ok c
  | none => Except.error ("ValueError: \x27" ++ s ++ "\x27 is not a valid Comparison")

theorem Comparison.ofValue_value (c : Comparison) :
    Comparison.ofValue c.value = some c := by
  cases c <;> rfl

/-- Dict values: the JSON-ish values the serializers exchange.  `DVal.l` is a
Python list, `DVal.d` a nested dict. -/
inductive DVal where
  | null
  | s (v : String)
  | b (v : Bool)
  | i (v : Int)
  | r (v : Rat)
  | l (vs : List DVal)
  | d (entries : List (String × DVal))
deriving Repr

mutual

/-- Decidable equality for dict values (the nested inductive defeats the
automatic derivation). -/
def DVal.decEq : (x y : DVal) → Decidable (x = y)
  | .null, .null => isTrue rfl
  | .s u, .s v =>
      match String.decEq u v with
      | isTrue h => isTrue (h ▸ rfl)
      | isFalse h => isFalse (fun hh => h (DVal.s.inj hh))
  | .b u, .b v =>
      match instDecidableEqBool u v with
      | isTrue h => isTrue (h ▸ rfl)
      | isFalse h => isFalse (fun hh => h (DVal.b.inj hh))
  | .i u, .i v =>
      match Int.instDecidableEq u v with
      | isTrue h => isTrue (h ▸ rfl)
      | isFalse h => isFalse (fun hh => h (DVal.i.inj hh))
  | .r u, .r v =>
      match (inferInstanceAs (DecidableEq Rat)) u v with
      | isTrue h => isTrue (h ▸ rfl)
      | isFalse h => isFalse (fun hh => h (DVal.r.inj hh))
  | .l u, .l v =>
      match DVal.decEqList u v with
      | isTrue h => isTrue (h ▸ rfl)
      | isFalse h => isFalse (fun hh => h (DVal.l.inj hh))
  | .d u, .d v =>
      match DVal.decEqEntries u v with
      | isTrue h => isTrue (h ▸ rfl)
      | isFalse h => isFalse (fun hh => h (DVal.d.inj hh))
  | .null, .s _ | .null, .b _ | .null, .i _ | .null, .r _ | .null, .l _ | .null, .d _
  | .s _, .null | .s _, .b _ | .s _, .i _ | .s _, .r _ | .s _, .l _ | .s _, .d _
  | .b _, .null | .b _, .s _ | .b _, .i _ | .b _, .r _ | .b _, .l _ | .b _, .d _
  | .i _, .null | .i _, .s _ | .i _, .b _ | .i _, .r _ | .i _, .l _ | .i _, .d _
  | .r _, .null | .r _, .s _ | .r _, .b _ | .r _, .i _ | .r _, .l _ | .r _, .d _
  | .l _, .null | .l _, .s _ | .l _, .b _ | .l _, .i _ | .l _, .r _ | .l _, .d _
  | .d _, .null | .d _, .s _ | .d _, .b _ | .d _, .i _ | .d _, .r _ | .d _, .l _ =>
      isFalse (by intro h; exact absurd h (by simp))

/-- Decidable equality for lists of dict values. -/
def DVal.decEqList : (xs ys : List DVal) → Decidable (xs = ys)
  | [], [] => isTrue rfl
  | [], _ :: _ => isFalse (by simp)
  | _ :: _, [] => isFalse (by simp)
  | u :: us, v :: vs =>
      match DVal.decEq u v, DVal.decEqList us vs with
      | isTrue h1, isTrue h2 => isTrue (by rw [h1, h2])
      | isFalse h1, _ => isFalse (fun hh => h1 (List.cons.inj hh).1)
      | _, isFalse h2 => isFalse (fun hh => h2 (List.cons.inj hh).2)

/-- Decidable equality for dict entry lists. -/
def DVal.decEqEntries : (xs ys : List (String × DVal)) → Decidable (xs = ys)
  | [], [] => isTrue rfl
  | [], _ :: _ => isFalse (by simp)
  | _ :: _, [] => isFalse (by simp)
  | (k1, u) :: us, (k2, v) :: vs =>
      match String.decEq k1 k2, DVal.decEq u v, DVal.decEqEntries us vs with
      | isTrue hk, isTrue h1, isTrue h2 => isTrue (by rw [hk, h1, h2])
      | isFalse hk, _, _ =>
          isFalse (fun hh => hk (congrArg Prod.fst (List.cons.inj hh).1))
      | _, isFalse h1, _ =>
          isFalse (fun hh => h1 (congrArg Prod.snd (List.cons.inj hh).1))
      | _, _, isFalse h2 => isFalse (fun hh => h2 (List.cons.inj hh).2)

end

instance : DecidableEq DVal := DVal.decEq

/-- An insertion-ordered Python dict. -/
abbrev Dict := List (String × DVal)

/-- Python dict assignment `d[k] = v`: replaces in place when the key is
present, appends otherwise. -/
def dinsert (d : Dict) (k : String) (v : DVal) : Dict :=
  match d with
  | [] => [(k, v)]
  | (k', v') :: rest =>
      if k' = k then (k, v) :: rest else (k', v') :: dinsert rest k v

/-- Python `d.get(k)` (`None` default). -/
def dget (d : Dict) (k : String) : Option DVal :=
  match d with
  | [] => none
  | (k', v') :: rest => if k' = k then some v' else dget rest k

/-- Python `d.get(k, default)`. -/
def dgetD (d : Dict) (k : String) (dflt : DVal) : DVal :=
  (dget d k).getD dflt

/-- Python truthiness of a dict value. -/
def DVal.truthy : DVal → Bool
  | .null => false
  | .s v => v != ""
  | .b v => v
  | .i v => v != 0
  | .r v => v != 0
  | .l vs => !vs.isEmpty
  | .d entries => !entries.isEmpty

/-- Python `bool(x)` on a dict value. -/
def DVal.pyBool (v : DVal) : Bool := v.truthy

/-- An approximate rendering of Python `str(x)` / `repr` for dict values;
claims only exercise the string and integer cases. -/
def DVal.pyStr : DVal → String
  | .null => "None"
  | .s v => v
  | .b v => if v then "True" else "False"
  | .i v => toString v
  | .r v => toString v.num ++ "." ++ toString v.den
  | .l _ => "[...]"
  | .d _ => "\x7b...\x7d"

/-- Python `int(x)` on a dict value (string parsing modelled for decimal
digits only; other shapes raise, as `int` does on them). -/
def DVal.pyInt : DVal → Except String Int
  | .i v => Except.ok v
  | .b v => Except.ok (if v then 1 else 0)
  | .s v =>
      match pyParseInt v with
      | some n => Except.ok n
      | none => Except.error ("ValueError: invalid literal for int(): " ++ v)
  | v => Except.error ("TypeError: int() argument: " ++ v.pyStr)

/-- Python `float(x)` on a dict value. -/
def DVal.pyFloat : DVal → Except String Rat
  | .r v => Except.ok v
  | .i v => Except.ok (v : Rat)
  | .b v => Except.ok (if v then 1 else 0)
  | v => Except.error ("TypeError: float() argument: " ++ v.pyStr)

/-- Characters allowed by the variable-name pattern `^[a-zA-Z0-9_]+$`. -/
def varChar (c : Char) : Bool :=
  c.isAlphanum || c = '_'

/-- `re.match(r'^[a-zA-Z0-9_]+$', s)` as a Bool. -/
def varPattern (s : String) : Bool :=
  s != "" && s.data.all varChar

/-- `re.match(r'^[a-zA-Z0-9_?]+$', s)` as a Bool (the pattern used when the
name already starts with `?`). -/
def varPatternQ (s : String) : Bool :=
  s != "" && s.data.all (fun c => varChar c || c = '?')

/-- `Variable.__new__` on a non-empty string: keeps a `?`-prefixed name that
matches `^[a-zA-Z0-9_?]+$`, prefixes `?` to a bare name matching
`^[a-zA-Z0-9_]+$`, raises `ValueError` otherwise. -/
def mkVariableNamed (s : String) : Except String String :=
  if pyStartsWith s "?" then
    if varPatternQ s then Except.ok s
    else Except.error ("ValueError: Bad variable name " ++ s)
  else
    if varPattern s then Except.ok ("?" ++ s)
    else Except.error ("ValueError: Bad variable name " ++ s)

/-- Hex rendering of a Python int (as in `hex(value)`). -/
def intHex (k : Int) : String :=
  if k < 0 then "-0x" ++ natHexDigits k.natAbs else "0x" ++ natHexDigits k.natAbs

/-- `Variable.__new__`: `None`/empty/zero-ish values mint a fresh name from
the injected counter (the source draws `random.randint(0, 1000000)`); an int
is rendered as `f'?{hex(value)}'`; a string is validated by
`mkVariableNamed`. -/
def mkVariable (value : Option String) (n : Nat) : Except String (String × Nat) :=
  match value with
  | none => Except.ok (freshVarName n, n + 1)
  | some s =>
      if s = "" then Except.ok (freshVarName n, n + 1)
      else (mkVariableNamed s).map (fun v => (v, n))

/-- `Variable.is_valid_variable_value`: whether `Variable(s)` succeeds. -/
def isValidVariableValue (s : String) : Bool :=
  if s = "" then true
  else if pyStartsWith s "?" then varPatternQ s
  else varPattern s

/-- `Identifier.is_valid_id`: `False` for `?`-prefixed strings, `True`
otherwise (`URIRef(s)` does not raise on ordinary strings). -/
def isValidId (s : String) : Bool :=
  !(pyStartsWith s "?")

/-- `Value.__init__` validation on a string payload. -/
def mkValue (s : String) : Except String String :=
  if (pyStartsWith s "<" && pyEndsWith s ">") || pyStartsWith s "?" then
    Except.error ("ValueError: Bad value string " ++ s)
  else Except.ok s

/-- The argument given to `AtomicClause.__init__`: an already-typed term, a
raw string, or a number (the `URIRef` branch of `_instantiate_argument` is
covered by `term (.id _)`). -/
inductive ArgInput where
  | term (t : Term)
  | str (s : String)
  | int (k : Int)
deriving DecidableEq, Repr

/-- Python truthiness of an argument input. -/
def ArgInput.truthy : ArgInput → Bool
  | .term t => t.truthy
  | .str s => s != ""
  | .int k => k != 0

/-- `AtomicClause._instantiate_argument`: typed values pass through; ints
become `Value`s; a string starting with `?` becomes a (validated) `Variable`,
one starting with `<` or with a `:` in its first 8 characters becomes an
`Identifier`, anything else a `Value`.  (A `?`-prefixed argument string is
non-empty, so `Variable(arg)` never mints a fresh name here.) -/
def instantiateArgument : ArgInput → Except String Term
  | .term t => Except.ok t
  | .int k => Except.ok (.val (toString k))
  | .str s =>
      if pyStartsWith s "?" then (mkVariableNamed s).map Term.var
      else if pyStartsWith s "<" || (s.data.take 8).contains ':' then Except.ok (.id s)
      else (mkValue s).map Term.val

/-- `AtomicClause`: `variable_` models the `variable` attribute (that word is
a Lean keyword); it holds the variable's string, `?` included, as a
`Variable` instance would. -/
structure AtomicClause where
  subject : Option Term
  property : Option String
  argument : Option Term
  variable_ : Option String
  method : Comparison
  project : Bool
  optional : Bool
deriving DecidableEq, Repr

/-- `AtomicClause()` with all defaults. -/
def AtomicClause.default : AtomicClause :=
  ⟨none, none, none, none, .ANY, true, false⟩

/-- Python truthiness of an optional string attribute. -/
def optStrTruthy : Option String → Bool
  | none => false
  | some s => s != ""

/-- The initializer's subject handling, as its own function:
`if self.subject and isinstance(subject, str): Variable(subject) if
subject.startswith("?") else Identifier(subject)`. -/
def initSubject : Option Term → Except String (Option Term)
  | none => Except.ok none
  | some t =>
      if t.truthy then
        if pyStartsWith t.pyStr "?" then
          (mkVariableNamed t.pyStr).map (fun v => some (Term.var v))
        else Except.ok (some (Term.id t.pyStr))
      else Except.ok (some t)

/-- The initializer's argument handling:
`self._instantiate_argument(argument) if argument else variable if variable
else None`. -/
def initArgument (argument : Option ArgInput) (variable_ : Option String) :
    Except String (Option Term) :=
  match argument with
  | some a =>
      if a.truthy then (instantiateArgument a).map some
      else Except.ok (variable_.filter (fun v => v != "") |>.map Term.var)
  | none => Except.ok (variable_.filter (fun v => v != "") |>.map Term.var)

/-- `AtomicClause.__init__`.  Any truthy subject is an `isinstance(_, str)`
(all three wrappers subclass `str`), so it is re-classified by its leading
`?`: `Variable(subject)` (validated, hence `Except`) when it starts with `?`,
else `Identifier(subject)`; a falsy subject is stored unchanged.  The
argument is instantiated when truthy, else it falls back to the variable,
else `None`. -/
def AtomicClause.make (subject : Option Term) (property : Option String)
    (argument : Option ArgInput) (variable_ : Option String)
    (method : Comparison) (project : Bool) (optional : Bool) :
    Except String AtomicClause := do
  let subj : Option Term ← initSubject subject
  let arg : Option Term ← initArgument argument variable_
  pure ⟨subj, property, arg, variable_, method, project, optional⟩

/-- `AtomicClause.is_defined`. -/
def AtomicClause.isDefined (c : AtomicClause) : Bool :=
  optTermTruthy c.subject && optStrTruthy c.property &&
    (optTermTruthy c.argument || optStrTruthy c.variable_)

/-- `str(x)` for the optional property attribute. -/
def optPropPyStr : Option String → String
  | none => "None"
  | some p => p

/-- `AtomicClause.n3`.  An `Identifier` subject renders as `<uri>`, any other
subject as its string (`None` prints as `None`); the property renders as
`<...>` whether it is an `Identifier` (`URIRef.n3()`) or a plain string
(`f"<{self.property}>"`).  When both argument and variable are falsy the
source builds a `ValueError` but forgets to `raise` it, so the object slot
renders as `None`. -/
def AtomicClause.n3 (c : AtomicClause) : String :=
  let subj :=
    match c.subject with
    | some (.id s) => "<" ++ s ++ ">"
    | some t => t.pyStr
    | none => "None"
  let pred := "<" ++ optPropPyStr c.property ++ ">"
  let obj :=
    match c.argument with
    | some t =>
        if t.truthy then
          match t with
          | .id s => "<" ++ s ++ ">"
          | t' => t'.pyStr
        else nonArgObj
    | none => nonArgObj
  subj ++ " " ++ pred ++ " " ++ obj
where
  nonArgObj :=
    match c.variable_ with
    | some v => if v != "" then v else "None"
    | none => "None"

/-- Dict value of the optional property attribute (Python `None` or str). -/
def optStrDVal : Option String → DVal
  | none => DVal.null
  | some s => DVal.s s

/-- `AtomicClause.to_dict`: `property`, `method`, `project`, `optional`
always; `subject` when truthy; one argument key selected by the runtime type
of `argument`; `variable` (possibly overwriting the argument key's entry)
when the explicit variable is truthy; the `type: "atomic"` discriminator for
version `"latest"` only. -/
def AtomicClause.toDict (c : AtomicClause) (version : String) : Dict :=
  let out : Dict :=
    [("property", optStrDVal c.property),
     ("method", DVal.s c.method.value),
     ("project", DVal.b c.project),
     ("optional", DVal.b c.optional)]
  let out :=
    if optTermTruthy c.subject then
      dinsert out "subject" (DVal.s (optTermPyStr c.subject))
    else out
  let out :=
    match c.argument with
    | some t =>
        if t.truthy then
          match t with
          | .val s => dinsert out "value" (DVal.s s)
          | .var s => dinsert out "variable" (DVal.s s)
          | .id s => dinsert out "identifier" (DVal.s s)
        else out
    | none => out
  let out :=
    match c.variable_ with
    | some v => if v != "" then dinsert out "variable" (DVal.s v) else out
    | none => out
  if version = "latest" then dinsert out "type" (DVal.s "atomic") else out

/-- Resolution of the `subject` keyword argument at the top of
`AtomicClause.from_dict`: the sentinel string `"query.subject"` becomes the
query-subject variable; an `Identifier`/`Variable` instance passes through; a
truthy other string is classified (`Identifier` unless it starts with `?`,
else a validated `Variable`, else `ValueError`); `None` and falsy values are
stored unchanged. -/
def resolveSubjectKwarg : Option Term → Except String (Option Term)
  | none => Except.ok none
  | some t =>
      if t.pyStr = "query.subject" then Except.ok (some (Term.var ("?" ++ SUBJVAR)))
      else
        match t with
        | .id _ => Except.ok (some t)
        | .var _ => Except.ok (some t)
        | .val s =>
            if s != "" then
              if isValidId s then Except.ok (some (Term.id s))
              else if isValidVariableValue s then Except.ok (some (Term.var s))
              else Except.error ("ValueError: Invalid subject " ++ s)
            else Except.ok (some t)

/-- One key of `AtomicClause.from_dict`'s `match key` loop. -/
def AtomicClause.fromDictStep (st : AtomicClause × Nat) (kv : String × DVal) :
    Except String (AtomicClause × Nat) :=
  let c := st.1
  let n := st.2
  match kv.1 with
  | "type" =>
      match kv.2 with
      | DVal.s "atomic" => Except.ok (c, n)
      | _ => Except.error "ValueError: wrong clause type"
  | "property" =>
      match kv.2 with
      | DVal.s s => Except.ok ({ c with property := some s }, n)
      | _ => Except.error "TypeError: URIRef of a non-string"
  | "subject" =>
      -- `if self.subject: pass` — only a falsy resolved subject reaches the
      -- classification, whose result is then re-tested for truthiness.
      if optTermTruthy c.subject then Except.ok (c, n)
      else
        match kv.2 with
        | DVal.s s =>
            if isValidId s then
              if s != "" then Except.ok ({ c with subject := some (Term.id s) }, n)
              else Except.error ("ValueError: Invalid subject value " ++ s)
            else
              (mkVariableNamed s).map (fun v => ({ c with subject := some (Term.var v) }, n))
        | v => Except.error ("AttributeError: startswith on " ++ v.pyStr)
  | "variable" =>
      match kv.2 with
      | DVal.s s =>
          if s = "query.subject" then
            let c := { c with variable_ := some ("?" ++ SUBJVAR) }
            Except.ok (ite (c.argument = none)
              { c with argument := some (Term.var ("?" ++ SUBJVAR)) } c, n)
          else
            (mkVariable (some s) n).map (fun p =>
              let c := { c with variable_ := some p.1 }
              (ite (c.argument = none) { c with argument := some (Term.var p.1) } c, p.2))
      | DVal.i k =>
          if k = 0 then
            let v := freshVarName n
            let c := { c with variable_ := some v }
            Except.ok (ite (c.argument = none)
              { c with argument := some (Term.var v) } c, n + 1)
          else
            let v := "?" ++ intHex k
            let c := { c with variable_ := some v }
            Except.ok (ite (c.argument = none)
              { c with argument := some (Term.var v) } c, n)
      | v => Except.error ("ValueError: Bad variable type " ++ v.pyStr)
  | "argument" =>
      match kv.2 with
      | DVal.s s =>
          if isValidId s then Except.ok ({ c with argument := some (Term.id s) }, n)
          else (mkVariableNamed s).map (fun v => ({ c with argument := some (Term.var v) }, n))
      | v => Except.error ("AttributeError: startswith on " ++ v.pyStr)
  | "identifier" =>
      match kv.2 with
      | DVal.s s =>
          if isValidId s then Except.ok ({ c with argument := some (Term.id s) }, n)
          else (mkVariableNamed s).map (fun v => ({ c with argument := some (Term.var v) }, n))
      | v => Except.error ("AttributeError: startswith on " ++ v.pyStr)
  | "value" =>
      match kv.2 with
      | DVal.s s => (mkValue s).map (fun v => ({ c with argument := some (Term.val v) }, n))
      | v => Except.ok ({ c with argument := some (Term.val v.pyStr) }, n)
  | "method" =>
      match kv.2 with
      | DVal.s s => (Comparison.coerce s).map (fun m => ({ c with method := m }, n))
      | v => Except.error ("ValueError: " ++ v.pyStr ++ " is not a valid Comparison")
  | "project" => Except.ok ({ c with project := kv.2.pyBool }, n)
  | "optional" => Except.ok ({ c with optional := kv.2.pyBool }, n)
  | key => Except.error ("ValueError: Invalid clause key " ++ key)

/-- `AtomicClause.from_dict(data, subject=..)`. -/
def AtomicClause.fromDict (c : AtomicClause) (data : Dict) (subject : Option Term)
    (n : Nat) : Except String (AtomicClause × Nat) := do
  let subj ← resolveSubjectKwarg subject
  data.foldlM AtomicClause.fromDictStep ({ c with subject := subj }, n)

/-- The clause tree: `AtomicClause`, `ConjunctiveClause` and
`DisjunctiveClause` (the two composites share the `CompositeClause` layout:
subject, ordered children, optional flag). -/
inductive Clause where
  | atomic (c : AtomicClause)
  | conj (subject : Option Term) (clauses : List Clause) (optional : Bool)
  | disj (subject : Option Term) (clauses : List Clause) (optional : Bool)
deriving Repr

mutual

/-- Decidable equality for clauses (nested inductive again). -/
def Clause.decEq : (x y : Clause) → Decidable (x = y)
  | .atomic u, .atomic v =>
      match (inferInstanceAs (DecidableEq AtomicClause)) u v with
      | isTrue h => isTrue (h ▸ rfl)
      | isFalse h => isFalse (fun hh => h (Clause.atomic.inj hh))
  | .conj s1 c1 o1, .conj s2 c2 o2 =>
      match (inferInstanceAs (DecidableEq (Option Term))) s1 s2,
            Clause.decEqList c1 c2,
            instDecidableEqBool o1 o2 with
      | isTrue hs, isTrue hc, isTrue ho => isTrue (by rw [hs, hc, ho])
      | isFalse hs, _, _ => isFalse (fun hh => hs (Clause.conj.inj hh).1)
      | _, isFalse hc, _ => isFalse (fun hh => hc (Clause.conj.inj hh).2.1)
      | _, _, isFalse ho => isFalse (fun hh => ho (Clause.conj.inj hh).2.2)
  | .disj s1 c1 o1, .disj s2 c2 o2 =>
      match (inferInstanceAs (DecidableEq (Option Term))) s1 s2,
            Clause.decEqList c1 c2,
            instDecidableEqBool o1 o2 with
      | isTrue hs, isTrue hc, isTrue ho => isTrue (by rw [hs, hc, ho])
      | isFalse hs, _, _ => isFalse (fun hh => hs (Clause.disj.inj hh).1)
      | _, isFalse hc, _ => isFalse (fun hh => hc (Clause.disj.inj hh).2.1)
      | _, _, isFalse ho => isFalse (fun hh => ho (Clause.disj.inj hh).2.2)
  | .atomic _, .conj _ _ _ | .atomic _, .disj _ _ _
  | .conj _ _ _, .atomic _ | .conj _ _ _, .disj _ _ _
  | .disj _ _ _, .atomic _ | .disj _ _ _, .conj _ _ _ =>
      isFalse (by intro h; exact absurd h (by simp))

/-- Decidable equality for clause lists. -/
def Clause.decEqList : (xs ys : List Clause) → Decidable (xs = ys)
  | [], [] => isTrue rfl
  | [], _ :: _ => isFalse (by simp)
  | _ :: _, [] => isFalse (by simp)
  | u :: us, v :: vs =>
      match Clause.decEq u v, Clause.decEqList us vs with
      | isTrue h1, isTrue h2 => isTrue (by rw [h1, h2])
      | isFalse h1, _ => isFalse (fun hh => h1 (List.cons.inj hh).1)
      | _, isFalse h2 => isFalse (fun hh => h2 (List.cons.inj hh).2)

end

instance : DecidableEq Clause := Clause.decEq

/-- `clause.subject` through the class hierarchy. -/
def Clause.getSubject : Clause → Option Term
  | .atomic c => c.subject
  | .conj s _ _ => s
  | .disj s _ _ => s

/-- The assignment `clause.subject = t`. -/
def Clause.setSubject (c : Clause) (t : Term) : Clause :=
  match c with
  | .atomic a => .atomic { a with subject := some t }
  | .conj _ cs o => .conj (some t) cs o
  | .disj _ cs o => .disj (some t) cs o

/-- `CompositeClause.__init__`'s subject default:
`subject if subject else Variable()` (truthiness, so a falsy subject also
mints a fresh variable). -/
def compositeSubject (subject : Option Term) (n : Nat) : Option Term × Nat :=
  if optTermTruthy subject then (subject, n)
  else (some (Term.var (freshVarName n)), n + 1)

/-- `DisjunctiveClause._validate_union_clauses`: vacuously true for a falsy
clause list, otherwise every child's subject must `==` the first child's
(Python string equality). -/
def validateUnionClauses (clauses : Option (List Clause)) : Bool :=
  match clauses with
  | none => true
  | some [] => true
  | some (c0 :: rest) =>
      (c0 :: rest).all (fun c => optTermPyEq (Clause.getSubject c) (Clause.getSubject c0))

/-- `ConjunctiveClause.__init__(clauses, optional)`: the subject is always
`None` at this point, so `CompositeClause.__init__` mints a fresh variable. -/
def mkConjunctiveClause (clauses : Option (List Clause)) (optional : Bool) (n : Nat) :
    Clause × Nat :=
  let p := compositeSubject none n
  (.conj p.1 (clauses.getD []) optional, p.2)

/-- `DisjunctiveClause.__init__(subject, clauses)`: builds the composite
(minting a fresh subject when the given one is falsy), then validates that
all children share one subject, raising `ValueError` otherwise.  The
`optional` flag is not a parameter and stays `False`. -/
def mkDisjunctiveClause (subject : Option Term) (clauses : Option (List Clause)) (n : Nat) :
    Except String (Clause × Nat) :=
  let p := compositeSubject subject n
  if validateUnionClauses clauses then
    Except.ok (.disj p.1 (clauses.getD []) false, p.2)
  else Except.error "ValueError: Invalid union clauses"

/-- `CompositeClause.add_atomic_clause`: appends
`AtomicClause(subject=self.subject, property, argument, method, project,
optional)` to the children.  Calling it on an atomic clause would be an
`AttributeError` in Python. -/
def Clause.addAtomicClause (c : Clause) (property : Option String) (argument : ArgInput)
    (method : Comparison) (project : Bool) (optional : Bool) : Except String Clause :=
  match c with
  | .conj s cs o =>
      (AtomicClause.make s property (some argument) none method project optional).map
        (fun a => .conj s (cs ++ [.atomic a]) o)
  | .disj s cs o =>
      (AtomicClause.make s property (some argument) none method project optional).map
        (fun a => .disj s (cs ++ [.atomic a]) o)
  | .atomic _ => Except.error "AttributeError: add_atomic_clause"

mutual

/-- `to_dict` over the clause hierarchy.  The composites serialize their
children with `c.to_dict()` — no version argument, so children always get
the `"latest"` shape. -/
def Clause.toDict : Clause → String → Dict
  | .atomic c, version => AtomicClause.toDict c version
  | .conj _ cs o, version =>
      let out : Dict := [("clauses", DVal.l (Clause.toDictList cs))]
      let out := if version = "latest" then dinsert out "type" (DVal.s "conjunction") else out
      if o then dinsert out "optional" (DVal.b true) else out
  | .disj s cs _, version =>
      let out : Dict :=
        [("subject", match s with | some t => DVal.s t.pyStr | none => DVal.null),
         ("clauses", DVal.l (Clause.toDictList cs))]
      if version = "latest" then dinsert out "type" (DVal.s "union") else out

/-- The `[c.to_dict() for c in clauses]` comprehension. -/
def Clause.toDictList : List Clause → List DVal
  | [] => []
  | c :: cs => DVal.d (Clause.toDict c "latest") :: Clause.toDictList cs

end

/-- A dict value used as a subject keyword argument: strings classify later,
`None` is `None`; other falsy values behave like `None` at every use site
(truthiness tests only), other truthy values like their `str()`. -/
def dvalToSubjTerm : DVal → Option Term
  | DVal.s s => some (.val s)
  | DVal.null => none
  | v => if v.truthy then some (.val v.pyStr) else none

/-- The subject passed down for one child dict:
`atom_dict.get('subject', inherited)`. -/
def childSubject (entries : Dict) (inherited : Option Term) : Option Term :=
  match dget entries "subject" with
  | some v => dvalToSubjTerm v
  | none => inherited

/-- The loop body shared by both composite `from_dict`s: rebuild one child as
an `AtomicClause` from its dict. -/
def compositeChildFromDict (item : DVal) (inherited : Option Term) (n : Nat) :
    Except String (Clause × Nat) :=
  match item with
  | DVal.d entries =>
      (AtomicClause.fromDict AtomicClause.default entries (childSubject entries inherited) n).map
        (fun p => (.atomic p.1, p.2))
  | v => Except.error ("AttributeError: get on " ++ v.pyStr)

/-- Folding `compositeChildFromDict` over a serialized child list. -/
def compositeChildrenFromDict (items : List DVal) (inherited : Option Term) (n : Nat) :
    Except String (List Clause × Nat) :=
  items.foldlM
    (fun acc item =>
      (compositeChildFromDict item inherited acc.2).map (fun p => (acc.1 ++ [p.1], p.2)))
    ([], n)

/-- `ConjunctiveClause.from_dict(data, subject=..)`: overwrites the subject
with the keyword argument, reads `optional`, and appends every child of
`data.get('clauses', [])` rebuilt as an `AtomicClause` (children inherit the
new subject unless their dict carries one). -/
def ConjunctiveClause.fromDict (self : Clause) (data : Dict) (subject : Option Term)
    (n : Nat) : Except String (Clause × Nat) :=
  match self with
  | .conj _ cs0 _ =>
      let opt := (dgetD data "optional" (DVal.b false)).pyBool
      match dgetD data "clauses" (DVal.l []) with
      | DVal.l items =>
          (compositeChildrenFromDict items subject n).map
            (fun p => (.conj subject (cs0 ++ p.1) opt, p.2))
      | v => Except.error ("TypeError: iteration over " ++ v.pyStr)
  | _ => Except.error "AttributeError: not a conjunction"

/-- `DisjunctiveClause.from_dict(data, subject=..)`: resolves the inherited
subject as `kwargs.get('subject', self.subject)` (the `subjectArg` is `none`
when the caller omitted the keyword), appends rebuilt children, and — unlike
the conjunctive case — never assigns `self.subject`. -/
def DisjunctiveClause.fromDict (self : Clause) (data : Dict)
    (subjectArg : Option (Option Term)) (n : Nat) : Except String (Clause × Nat) :=
  match self with
  | .disj s0 cs0 o0 =>
      let inherited := subjectArg.getD s0
      match dgetD data "clauses" (DVal.l []) with
      | DVal.l items =>
          (compositeChildrenFromDict items inherited n).map
            (fun p => (.disj s0 (cs0 ++ p.1) o0, p.2))
      | v => Except.error ("TypeError: iteration over " ++ v.pyStr)
  | _ => Except.error "AttributeError: not a union"

/-- `SelectQuery`'s state. -/
structure SelectQuery where
  prefixes : List (String × String)
  clauses : List Clause
  graph : String
  limit : Int
  lang : String
  min_score : Option Rat
deriving DecidableEq, Repr

/-- `SelectQuery.__init__`: `None` prefixes become the defaults; a falsy
clause argument leaves the list empty. -/
def mkSelectQuery (prefixes : Option (List (String × String))) (clauses : Option (List Clause))
    (graph : String) (limit : Int) (lang : String) (min_score : Option Rat) : SelectQuery :=
  ⟨prefixes.getD DEFAULT_PREFIXES, (clauses.getD []), graph, limit, lang, min_score⟩

/-- `isinstance(clause, AtomicClause) and clause.method == Comparison.KEYWORD`. -/
def isKeywordAtomic : Clause → Bool
  | .atomic a => a.method = Comparison.KEYWORD
  | _ => false

/-- The single-clause tail of `SelectQuery.add`: a `KEYWORD` atomic clause is
spliced to index 0 (`self.clauses.insert(0, clause)`), everything else is
appended. -/
def SelectQuery.addClause (q : SelectQuery) (c : Clause) : SelectQuery :=
  if isKeywordAtomic c then { q with clauses := c :: q.clauses }
  else { q with clauses := q.clauses ++ [c] }

/-- The list branch of `SelectQuery.add`: wrap per the `type` option
(default `"conjunction"`), then re-enter `add` with the composite — which,
on a plain `SelectQuery`, appends it (composites are never keyword
atomics). -/
def SelectQuery.addList (q : SelectQuery) (cs : List Clause) (ty : String)
    (optionalKw : Bool) (subjectKw : Option Term) (n : Nat) :
    Except String (SelectQuery × Nat) :=
  match ty with
  | "conjunction" =>
      let p := mkConjunctiveClause (some cs) optionalKw n
      Except.ok (q.addClause p.1, p.2)
  | "union" =>
      (mkDisjunctiveClause subjectKw (some cs) n).map (fun p => (q.addClause p.1, p.2))
  | _ => Except.error "ValueError: unknown list clause type"

/-- `UnarySelectQuery`'s state: a `SelectQuery` plus the single subject
(never `None`: the constructor defaults it to `Variable(_SUBJVAR)`). -/
structure UnarySelectQuery extends SelectQuery where
  subject : Term
deriving DecidableEq, Repr

/-- The single-clause path of `UnarySelectQuery.add`: a clause whose subject
`is None` first receives the query's subject, then `SelectQuery.add` runs. -/
def UnarySelectQuery.addSingle (q : UnarySelectQuery) (c : Clause) : UnarySelectQuery :=
  let c' := if (Clause.getSubject c).isNone then Clause.setSubject c q.subject else c
  { q with toSelectQuery := q.toSelectQuery.addClause c' }

/-- The clause actually inserted by `UnarySelectQuery.add`: the original
clause, its subject replaced by the query's when it was `None`. -/
def UnarySelectQuery.resolveAdded (q : UnarySelectQuery) (c : Clause) : Clause :=
  if (Clause.getSubject c).isNone then Clause.setSubject c q.subject else c

/-- The list branch of `UnarySelectQuery.add` executes
`return super(clause, **kwargs)`: `super` called with a list (and keyword
arguments) raises `TypeError` — nothing is ever wrapped or appended. -/
def UnarySelectQuery.addList (_q : UnarySelectQuery) (_cs : List Clause) :
    Except String (UnarySelectQuery × Nat) :=
  Except.error "TypeError: super() argument 1 must be a type, not list"

/-- `UnarySelectQuery.is_scored`: some top-level clause is an atomic
`KEYWORD` clause (`next(filter(..), None) is not None` over `self.clauses`;
nested clauses are not inspected). -/
def UnarySelectQuery.isScored (q : UnarySelectQuery) : Bool :=
  q.clauses.any isKeywordAtomic

mutual

/-- Whether any clause in the tree (nested ones included) is an atomic
`KEYWORD` clause — the "contains" relation the spec quantifies over. -/
def Clause.containsKeyword : Clause → Bool
  | .atomic a => a.method = Comparison.KEYWORD
  | .conj _ cs _ => Clause.containsKeywordList cs
  | .disj _ cs _ => Clause.containsKeywordList cs

/-- `containsKeyword` over a clause list. -/
def Clause.containsKeywordList : List Clause → Bool
  | [] => false
  | c :: cs => Clause.containsKeyword c || Clause.containsKeywordList cs

end

/-- A query contains a `KEYWORD` atomic clause somewhere in its clause
forest. -/
def SelectQuery.containsKeywordClause (q : SelectQuery) : Bool :=
  q.clauses.any Clause.containsKeyword

/-- The projected-variable collection pass of `SelectQuery.project_vars`
(before the `set()`): projecting atomic clauses contribute their `Variable`
arguments and `Variable` subjects, in clause order. -/
def SelectQuery.projectVarsList (q : SelectQuery) : List String :=
  q.clauses.foldl
    (fun acc c =>
      match c with
      | .atomic a =>
          if a.project then
            let acc :=
              match a.argument with
              | some (.var v) => acc ++ [v]
              | _ => acc
            match a.subject with
            | some (.var v) => acc ++ [v]
            | _ => acc
          else acc
      | _ => acc)
    []

/-- `SelectQuery.project_vars` — the source returns a Python `set`, whose
iteration order is unspecified; the model deduplicates keeping first
occurrences, and no claim depends on more than one element. -/
def SelectQuery.projectVars (q : SelectQuery) : List String :=
  q.projectVarsList.foldl (fun acc v => if acc.contains v then acc else acc ++ [v]) []

/-- `UnarySelectQuery._new_id` on the string produced by `str(id_obj)`. -/
def newIdStr (s : String) : Except String Term :=
  if pyStartsWith s "?" then (mkVariableNamed s).map Term.var
  else Except.ok (Term.id s)

/-- `UnarySelectQuery._new_id`: `Identifier`/`Variable` instances pass
through, anything else is classified from its string. -/
def newId : Term → Except String Term
  | .id s => Except.ok (.id s)
  | .var s => Except.ok (.var s)
  | .val s => newIdStr s

/-- `UnarySelectQuery.add_kinds`: a falsy list is a no-op; otherwise one
mandatory `EXACT` rdf:type clause for the first kind, plus — only when there
are at least two kinds — a `DisjunctiveClause` on the query subject holding
one `EXACT` rdf:type clause per remaining kind. -/
def UnarySelectQuery.addKinds (q : UnarySelectQuery) (ks : List String) (n : Nat) :
    Except String (UnarySelectQuery × Nat) := do
  match ks with
  | [] => Except.ok (q, n)
  | k0 :: rest => do
      let c0 ← AtomicClause.make (some q.subject) (some RDF_TYPE)
        (some (.term (.id k0))) none .EXACT false false
      let q := q.addSingle (.atomic c0)
      if rest.isEmpty then Except.ok (q, n)
      else do
        let p ← mkDisjunctiveClause (some q.subject) none n
        let ku ← rest.foldlM
          (fun cl k => cl.addAtomicClause (some RDF_TYPE) (.term (.id k)) .EXACT false false)
          p.1
        Except.ok (q.addSingle ku, p.2)

/-- `UnarySelectQuery.add_match_clause`. -/
def UnarySelectQuery.addMatchClause (q : UnarySelectQuery) (predicate : Option String)
    (argument : ArgInput) (method : Comparison) (project : Bool) (optional : Bool) :
    Except String UnarySelectQuery :=
  (AtomicClause.make none predicate (some argument) none method project optional).map
    (fun a => q.addSingle (.atomic a))

/-- `UnarySelectQuery.add_fetch_clause`:
`AtomicClause(property=predicate, method=Comparison.ANY, project=True,
optional=True)` — with no subject and no argument every validation path of
the initializer is vacuous, so the clause is built directly. -/
def UnarySelectQuery.addFetchClause (q : UnarySelectQuery) (predicate : String) :
    UnarySelectQuery :=
  q.addSingle (.atomic ⟨none, some predicate, none, none, .ANY, true, true⟩)

/-- `UnarySelectQuery()` with every default:
subject `Variable(_SUBJVAR)`, default prefixes, no clauses,
graph `"defaultGraph"`, limit `-1`, lang `"en"`, no minimum score. -/
def UnarySelectQuery.default : UnarySelectQuery :=
  ⟨⟨DEFAULT_PREFIXES, [], "defaultGraph", -1, "en", none⟩, .var ("?" ++ SUBJVAR)⟩

/-- `UnarySelectQuery.__init__`: builds the base query, resolves the subject
(`_new_id` of a truthy subject, else the `_subj` variable), and — when a
truthy kind list is supplied — first adds the projecting kind-variable
clause `AtomicClause(subject, RDF_TYPE, Variable(_KINDVAR), project=True)`
and then runs `add_kinds`. -/
def mkUnarySelectQuery (subject : Option Term) (kinds : Option (List String))
    (prefixes : Option (List (String × String))) (clauses : Option (List Clause))
    (graph : String) (limit : Int) (lang : String) (min_score : Option Rat) (n : Nat) :
    Except String (UnarySelectQuery × Nat) := do
  let base := mkSelectQuery prefixes clauses graph limit lang min_score
  let subj ←
    match subject with
    | some t => if t.truthy then newId t else Except.ok (Term.var ("?" ++ SUBJVAR))
    | none => Except.ok (Term.var ("?" ++ SUBJVAR))
  let q : UnarySelectQuery := ⟨base, subj⟩
  match kinds with
  | some ks =>
      if ks.isEmpty then Except.ok (q, n)
      else do
        let projC ← AtomicClause.make (some subj) (some RDF_TYPE)
          (some (.term (.var ("?" ++ KINDVAR)))) none .ANY true false
        (q.addSingle (.atomic projC)).addKinds ks n
  | none => Except.ok (q, n)

/-- `UnarySelectQuery.to_dict(version="latest")`: the subject only for
`"latest"` or versions lexicographically above `"v1.0.0"`, then clauses
(serialized with the same version), graph, limit, lang, and `min_score` only
when truthy. -/
def UnarySelectQuery.toDict (q : UnarySelectQuery) (version : String) : Dict :=
  let out : Dict :=
    if version = "latest" || pyStrGT version "v1.0.0" then
      [("subject", DVal.s q.subject.pyStr)]
    else []
  let out := dinsert out "clauses" (DVal.l (q.clauses.map (fun c => DVal.d (c.toDict version))))
  let out := dinsert out "graph" (DVal.s q.graph)
  let out := dinsert out "limit" (DVal.i q.limit)
  let out := dinsert out "lang" (DVal.s q.lang)
  match q.min_score with
  | some r => if r != 0 then dinsert out "min_score" (DVal.r r) else out
  | none => out

/-- A `kinds` element from a dict must be a string (`URIRef` of anything
else raises). -/
def dvalToKindString : DVal → Except String String
  | DVal.s s => Except.ok s
  | v => Except.error ("TypeError: URIRef of " ++ v.pyStr)

/-- One entry of the `clauses` list inside `UnarySelectQuery.from_dict`:
dispatch on `clause_data.get('type', 'atomic')`, build the empty clause,
fill it with its `from_dict` (the subject keyword is
`clause_data.get('subject', self.subject)`), then `self.add(clause)`. -/
def UnarySelectQuery.addClauseFromDict (q : UnarySelectQuery) (item : DVal) (n : Nat) :
    Except String (UnarySelectQuery × Nat) :=
  match item with
  | DVal.d entries =>
      let subjKw : Option Term := childSubject entries (some q.subject)
      match dgetD entries "type" (DVal.s "atomic") with
      | DVal.s "atomic" =>
          (AtomicClause.fromDict AtomicClause.default entries subjKw n).map
            (fun p => (q.addSingle (.atomic p.1), p.2))
      | DVal.s "union" => do
          let p ← mkDisjunctiveClause none none n
          (DisjunctiveClause.fromDict p.1 entries (some subjKw) p.2).map
            (fun p2 => (q.addSingle p2.1, p2.2))
      | DVal.s "conjunction" =>
          let p := mkConjunctiveClause none false n
          (ConjunctiveClause.fromDict p.1 entries subjKw p.2).map
            (fun p2 => (q.addSingle p2.1, p2.2))
      | _ => Except.error "ValueError: Clause type unknown"
  | v => Except.error ("AttributeError: get on " ++ v.pyStr)

/-- One key of `UnarySelectQuery.from_dict`'s loop.  The state also carries
the `logging.error` messages: an unrecognized key only logs
`Illegal key <key>` and continues. -/
def UnarySelectQuery.fromDictStep (st : UnarySelectQuery × Nat × List String)
    (kv : String × DVal) : Except String (UnarySelectQuery × Nat × List String) :=
  let q := st.1
  let n := st.2.1
  let logs := st.2.2
  match kv.1 with
  | "subject" =>
      (newIdStr kv.2.pyStr).map (fun t => ({ q with subject := t }, n, logs))
  | "kinds" =>
      match kv.2 with
      | DVal.l items => do
          let ks ← items.mapM dvalToKindString
          (q.addKinds ks n).map (fun p => (p.1, p.2, logs))
      | v => Except.error ("TypeError: iteration over " ++ v.pyStr)
  | "clauses" =>
      match kv.2 with
      | DVal.l items =>
          (items.foldlM (fun acc item =>
              (UnarySelectQuery.addClauseFromDict acc.1 item acc.2).map
                (fun p => (p.1, p.2)))
            (q, n)).map (fun p => (p.1, p.2, logs))
      | v => Except.error ("TypeError: iteration over " ++ v.pyStr)
  | "graph" => Except.ok ({ q with graph := kv.2.pyStr }, n, logs)
  | "limit" => kv.2.pyInt.map (fun k => ({ q with limit := k }, n, logs))
  | "lang" => Except.ok ({ q with lang := kv.2.pyStr }, n, logs)
  | "min_score" => kv.2.pyFloat.map (fun r => ({ q with min_score := some r }, n, logs))
  | "minScore" => kv.2.pyFloat.map (fun r => ({ q with min_score := some r }, n, logs))
  | "dataset" => Except.ok (q, n, logs)
  | key => Except.ok (q, n, logs ++ ["Illegal key " ++ key])

/-- `UnarySelectQuery.from_dict`: the whole loop runs inside one
`try/except` whose handler re-raises
`ValueError(f"Malformed query due to: {e}")`. -/
def UnarySelectQuery.fromDict (q : UnarySelectQuery) (data : Dict) (n : Nat) :
    Except String (UnarySelectQuery × Nat × List String) :=
  (data.foldlM UnarySelectQuery.fromDictStep (q, n, [])).mapError
    (fun e => "ValueError: Malformed query due to: " ++ e)

/-- `UnarySelectQuery.new`: a default query filled by `from_dict`. -/
def UnarySelectQuery.new (rdata : Dict) (n : Nat) :
    Except String (UnarySelectQuery × Nat × List String) :=
  UnarySelectQuery.default.fromDict rdata n

/-- `UnarySelectQuery.atom_clauses`. -/
def UnarySelectQuery.atomClauses (q : UnarySelectQuery) : List Clause :=
  q.clauses.filter (fun c => match c with | .atomic _ => true | _ => false)

/-- `UnarySelectQuery.conjunctive_clauses`. -/
def UnarySelectQuery.conjunctiveClauses (q : UnarySelectQuery) : List Clause :=
  q.clauses.filter (fun c => match c with | .conj _ _ _ => true | _ => false)

/-- `UnarySelectQuery.disjunctive_clauses`. -/
def UnarySelectQuery.disjunctiveClauses (q : UnarySelectQuery) : List Clause :=
  q.clauses.filter (fun c => match c with | .disj _ _ _ => true | _ => false)

/-- `UnarySelectQuery.has_disjunctive_clauses`. -/
def UnarySelectQuery.hasDisjunctiveClauses (q : UnarySelectQuery) : Bool :=
  !q.disjunctiveClauses.isEmpty

/-- Approximate rendering of a Python float in an f-string; only the
generated `FILTER` text uses it and no claim inspects that text. -/
def ratPyRepr (r : Rat) : String :=
  if r.den = 1 then toString r.num ++ ".0"
  else toString r.num ++ "/" ++ toString r.den

/-- The argument slot as rendered by the f-strings of the non-triple
branches (`str(clause.argument)`; `None` prints as `None`). -/
def AtomicClause.argStr (c : AtomicClause) : String :=
  optTermPyStr c.argument

/-- `clause.property.n3()` as rendered in the REGEX/GREATER/LESSER branches;
an `Identifier` property renders as `<uri>`.  (A plain-string property would
raise `AttributeError` there; the model cannot distinguish the two since
they carry the same payload — no claim exercises that path.) -/
def AtomicClause.propN3 (c : AtomicClause) : String :=
  "<" ++ optPropPyStr c.property ++ ">"

mutual

/-- `SPARQLGenerator.generate_clause`.  The atomic branch first enforces
`is_defined`, then renders by comparison method; `SIMILARITY` is `pass`, so
its fragment is empty and only the terminator (or an empty OPTIONAL block)
is emitted.  Composites follow the source exactly — in particular a
conjunctive clause with several children renders `clauses[1:]` only. -/
def SPARQLGenerator.generateClause : Clause → Nat → Except String (String × Nat)
  | .atomic c, n =>
      if !c.isDefined then
        Except.error ("ValueError: Clause not defined " ++ optTermPyStr c.subject ++ " " ++
          optPropPyStr c.property ++ " " ++ optTermPyStr c.argument)
      else
        let rendered : Except String (String × Nat) :=
          match c.method with
          | .EXACT => Except.ok (c.n3, n)
          | .ANY => Except.ok (c.n3, n)
          | .REGEX =>
              let tmp := freshVarName n
              Except.ok (optTermPyStr c.subject ++ " " ++ c.propN3 ++ " " ++ tmp ++ "\n" ++
                "\n\t\tFILTER  regex(" ++ tmp ++ ", \"" ++ c.argStr ++ "\", \"i\")", n + 1)
          | .KEYWORD =>
              Except.ok ("(" ++ optTermPyStr c.subject ++ " ?" ++ SCOREVAR ++ ") text:query \"" ++
                c.argStr ++ "\"", n)
          | .GREATER =>
              let p := if optStrTruthy c.variable_
                then (c.variable_.getD "", n) else (freshVarName n, n + 1)
              Except.ok (optTermPyStr c.subject ++ " " ++ c.propN3 ++ " " ++ p.1 ++ "\n" ++
                "\t\tFILTER (" ++ p.1 ++ " > \"" ++ c.argStr ++ "\")", p.2)
          | .LESSER =>
              let p := if optStrTruthy c.variable_
                then (c.variable_.getD "", n) else (freshVarName n, n + 1)
              Except.ok (optTermPyStr c.subject ++ " " ++ c.propN3 ++ " " ++ p.1 ++ "\n" ++
                "FILTER (" ++ p.1 ++ " < \"" ++ c.argStr ++ "\")", p.2)
          | .SIMILARITY => Except.ok ("", n)
        rendered.map (fun p =>
          (if c.optional then "OPTIONAL \x7b " ++ p.1 ++ " \x7d\n" else p.1 ++ " .\n", p.2))
  | .conj _ cs o, n =>
      match cs with
      | [] => Except.error "IndexError: list index out of range"
      | [c] =>
          (SPARQLGenerator.generateClause c n).map (fun p => ("\t\t\t" ++ p.1, p.2))
      | _ :: c1 :: rest => do
          let p ← SPARQLGenerator.generateClauseSeq (c1 :: rest) n
          Except.ok ((if o then "OPTIONAL" else "") ++ "\t\x7b\n" ++ p.1 ++ "\t\t\x7d\n", p.2)
  | .disj _ cs _, n =>
      match cs with
      | [] => Except.error "IndexError: list index out of range"
      | [c] => do
          let p ← SPARQLGenerator.generateClause c n
          Except.ok ("\tUNION \x7b\n" ++ "\t\t\t" ++ p.1 ++ "\t\x7d\n", p.2)
      | c0 :: c1 :: rest => do
          let p0 ← SPARQLGenerator.generateClause c0 n
          let p ← SPARQLGenerator.generateClauseSeq (c1 :: rest) p0.2
          Except.ok ("\t\x7b\n" ++ "\t\t\x7b\n" ++ "\t\t\t" ++ p0.1 ++ "\t\t\x7d\n" ++
            "\tUNION \x7b\n" ++ p.1 ++ "\t\t\x7d\n" ++ "\t\x7d\n", p.2)

/-- The `for sub_clause in ...: strio.write("\t\t\t" + generate_clause(..))`
loops of the composite branches. -/
def SPARQLGenerator.generateClauseSeq : List Clause → Nat → Except String (String × Nat)
  | [], n => Except.ok ("", n)
  | c :: cs, n => do
      let p ← SPARQLGenerator.generateClause c n
      let p2 ← SPARQLGenerator.generateClauseSeq cs p.2
      Except.ok ("\t\t\t" ++ p.1 ++ p2.1, p2.2)

end

/-- Models the coercion `Comparison(clause.method)` at the top of the
generator's `match` when `clause.method` is a raw string rather than an enum
member: an unknown string raises `ValueError` naming it before any case is
tried. -/
def SPARQLGenerator.generateAtomicWithMethodStr (c : AtomicClause) (methodStr : String)
    (n : Nat) : Except String (String × Nat) :=
  match Comparison.coerce methodStr with
  | Except.error e => Except.error e
  | Except.ok m => SPARQLGenerator.generateClause (.atomic { c with method := m }) n

/-- A clause-list rendering fold with a per-clause indentation prefix, as in
the `generate_query` body loops. -/
def SPARQLGenerator.genListPrefixed (pre : String) (cs : List Clause) (n : Nat) :
    Except String (String × Nat) :=
  cs.foldlM
    (fun acc c =>
      (SPARQLGenerator.generateClause c acc.2).map (fun p => (acc.1 ++ pre ++ p.1, p.2)))
    ("", n)

/-- `SPARQLGenerator.generate_query` (the argument type already enforces the
`isinstance(query, UnarySelectQuery)` guard): prefixes, `SELECT distinct`
over the projected variables (plus the score variable when scored), a WHERE
body that renders disjunctive clauses after a block of atomic+conjunctive
ones when any disjunction is present, the optional score-floor filter,
descending score ordering when scored, and a LIMIT line when `limit > 0`. -/
def SPARQLGenerator.generateQuery (q : UnarySelectQuery) (n : Nat) :
    Except String (String × Nat) := do
  let prefixText := String.join
    (q.prefixes.map (fun p => "PREFIX " ++ p.1 ++ ": <" ++ p.2 ++ "#>\n"))
  let selectText := "SELECT distinct " ++
    String.join (q.toSelectQuery.projectVars.map (fun v => " " ++ v ++ " ")) ++
    (if q.isScored then " ?" ++ SCOREVAR ++ " " else "") ++ " WHERE \x7b\n"
  let body ←
    if q.hasDisjunctiveClauses then do
      let pa ← SPARQLGenerator.genListPrefixed "\t\t" q.atomClauses n
      let pc ← SPARQLGenerator.genListPrefixed "\t\t" q.conjunctiveClauses pa.2
      let pd ← SPARQLGenerator.genListPrefixed "" q.disjunctiveClauses pc.2
      Except.ok ("\t\x7b\n" ++ pa.1 ++ pc.1 ++ "\t\x7d\n" ++ pd.1, pd.2)
    else
      SPARQLGenerator.genListPrefixed "\t" q.clauses n
  let minScoreText :=
    match q.min_score with
    | some r => if r != 0 then "\tFILTER (?" ++ SCOREVAR ++ " >= " ++ ratPyRepr r ++ ")\n" else ""
    | none => ""
  Except.ok (prefixText ++ selectText ++ body.1 ++ minScoreText ++ "\x7d\n" ++
    (if q.isScored then "ORDER BY DESC(?" ++ SCOREVAR ++ ")\n" else "") ++
    (if q.limit > 0 then "LIMIT " ++ toString q.limit ++ "\n" else ""), body.2)

/-- Removing one key from a dict (used to compare clauses up to the one
field `from_dict` cannot restore, a union's composite subject). -/
def dictRemove (d : Dict) (k : String) : Dict :=
  d.filter (fun kv => kv.1 != k)

/-- The semantic key of a clause: its `"latest"` serialization, except that
a disjunctive clause is compared without its composite `subject` (the only
composite field `from_dict` does not restore — it reappears as a fresh
variable; the generator and the children never read it). -/
def Clause.semKey (c : Clause) : Dict :=
  match c with
  | .disj _ _ _ => dictRemove (c.toDict "latest") "subject"
  | _ => c.toDict "latest"

/-- A query subject that `_new_id` and `AtomicClause.__init__` reproduce
verbatim: an identifier not starting with `?`, or a variable matching the
variable grammar. -/
def queryTermWF : Term → Bool
  | .id s => !(pyStartsWith s "?")
  | .var s => pyStartsWith s "?" && varPatternQ s
  | .val _ => false

/-- Well-formedness of an atomic clause's resolved subject for round
tripping: a non-empty identifier (not the `"query.subject"` sentinel, no
leading `?`) or a grammar-valid variable. -/
def subjectWF : Option Term → Bool
  | some (.id s) => !(pyStartsWith s "?") && s != "" && s != "query.subject"
  | some (.var s) => pyStartsWith s "?" && varPatternQ s
  | _ => false

/-- Well-formedness of an atomic clause's argument: the invariants its own
constructors (`Identifier` / `Variable` / `Value`) guarantee, plus
non-emptiness (a falsy argument is dropped by `to_dict`). -/
def argWF : Term → Bool
  | .id s => !(pyStartsWith s "?") && s != ""
  | .var s => pyStartsWith s "?" && varPatternQ s && s != "query.subject"
  | .val s => !(pyStartsWith s "<" && pyEndsWith s ">") && !(pyStartsWith s "?") && s != ""

/-- Well-formedness of the explicit variable attribute. -/
def varAttrWF (v : String) : Bool :=
  pyStartsWith v "?" && varPatternQ v && v != "query.subject"

/-- Round-trip well-formedness of an atomic clause. -/
def AtomicClause.WF (c : AtomicClause) : Bool :=
  subjectWF c.subject && c.property.isSome &&
    (match c.argument with | none => true | some t => argWF t) &&
    (match c.variable_ with | none => true | some v => varAttrWF v)

/-- A composite child that `from_dict` can rebuild: an atomic, well-formed
clause (composite `from_dict`s reconstruct every child as an
`AtomicClause`). -/
def Clause.isAtomicWF : Clause → Bool
  | .atomic a => a.WF
  | _ => false

/-- Round-trip well-formedness of a top-level clause. -/
def Clause.WFb : Clause → Bool
  | .atomic a => a.WF
  | .conj _ cs _ => cs.all Clause.isAtomicWF
  | .disj _ cs _ => cs.all Clause.isAtomicWF

/-- Round-trip well-formedness of a whole query: reproducible subject,
well-formed clauses, `KEYWORD` atomic clauses only at index 0 (where `add`
puts them), and a `min_score` that survives the truthiness test. -/
def UnarySelectQuery.WF (q : UnarySelectQuery) : Bool :=
  queryTermWF q.subject &&
  q.clauses.all Clause.WFb &&
  (match q.clauses with
   | [] => true
   | _ :: rest => rest.all (fun c => !isKeywordAtomic c)) &&
  (match q.min_score with | some r => r != 0 | none => true)

/-- The mandatory `EXACT` rdf:type clause `add_kinds` builds for one kind. -/
def kindExactClause (t : Term) (k : String) : AtomicClause :=
  ⟨some t, some RDF_TYPE, some (.id k), none, .EXACT, false, false⟩

/-- The projecting kind-variable clause added by `UnarySelectQuery.__init__`
when kinds are supplied. -/
def kindProjClause (t : Term) : AtomicClause :=
  ⟨some t, some RDF_TYPE, some (.var ("?" ++ KINDVAR)), none, .ANY, true, false⟩

/-- What `add_kinds` appends for a given kind list. -/
def kindsEffect (t : Term) (ks : List String) : List Clause :=
  match ks with
  | [] => []
  | [k] => [.atomic (kindExactClause t k)]
  | k0 :: rest =>
      [.atomic (kindExactClause t k0),
       .disj (some t) (rest.map (fun k => .atomic (kindExactClause t k))) false]

/-- The number of argument-carrying keys (`value` / `variable` /
`identifier`) in a serialized clause. -/
def countArgKeys (d : Dict) : Nat :=
  (d.filter (fun kv => kv.1 = "value" || kv.1 = "variable" || kv.1 = "identifier")).length

/-- `UnarySelectQuery(subject=Identifier("http://ex.org/alice"))` as the
constructor produces it. -/
def aliceBase : UnarySelectQuery :=
  ⟨⟨DEFAULT_PREFIXES, [], "defaultGraph", -1, "en", none⟩, .id "http://ex.org/alice"⟩

/-- `aliceBase` after `add_fetch_clause(predicate="http://ex.org/age")`. -/
def aliceQuery : UnarySelectQuery :=
  aliceBase.addFetchClause "http://ex.org/age"

/-- What `aliceQuery.to_dict()` actually returns: the claimed dict plus the
`subject` entry inside the clause (assigned by `add`). -/
def aliceActualDict : Dict :=
  [("subject", DVal.s "http://ex.org/alice"),
   ("clauses", DVal.l
     [DVal.d
       [("property", DVal.s "http://ex.org/age"),
        ("method", DVal.s "any"),
        ("project", DVal.b true),
        ("optional", DVal.b true),
        ("subject", DVal.s "http://ex.org/alice"),
        ("type", DVal.s "atomic")]]),
   ("graph", DVal.s "defaultGraph"),
   ("limit", DVal.i (-1)),
   ("lang", DVal.s "en")]

/-- The dict the claim (spec §8) says `aliceQuery.to_dict()` equals — no
`subject` key inside the clause. -/
def aliceClaimedDict : Dict :=
  [("subject", DVal.s "http://ex.org/alice"),
   ("clauses", DVal.l
     [DVal.d
       [("property", DVal.s "http://ex.org/age"),
        ("method", DVal.s "any"),
        ("project", DVal.b true),
        ("optional", DVal.b true),
        ("type", DVal.s "atomic")]]),
   ("graph", DVal.s "defaultGraph"),
   ("limit", DVal.i (-1)),
   ("lang", DVal.s "en")]

/-- A top-level `KEYWORD` atomic clause on the default subject. -/
def kwClause : AtomicClause :=
  ⟨some (.var ("?" ++ SUBJVAR)), some "http://ex.org/p", some (.val "hello"), none,
    .KEYWORD, true, false⟩

/-- A non-`KEYWORD` atomic clause on the default subject. -/
def exactClause : AtomicClause :=
  ⟨some (.var ("?" ++ SUBJVAR)), some "http://ex.org/q", some (.val "x"), none,
    .EXACT, false, false⟩

/-- The query `UnarySelectQuery(clauses=[exactClause, kwClause])`: the
constructor appends the supplied clauses verbatim, without the `KEYWORD`
splice. -/
def c1Query : UnarySelectQuery :=
  ⟨⟨DEFAULT_PREFIXES, [.atomic exactClause, .atomic kwClause], "defaultGraph", -1, "en", none⟩,
   .var ("?" ++ SUBJVAR)⟩

/-- Building a query from scratch through single-clause `add` calls only. -/
def buildByAdds (cs : List Clause) : UnarySelectQuery :=
  cs.foldl UnarySelectQuery.addSingle UnarySelectQuery.default

/-- A defined `SIMILARITY` clause (non-optional). -/
def similarityClause : AtomicClause :=
  ⟨some (.var ("?" ++ SUBJVAR)), some "http://ex.org/p", some (.val "x"), none,
    .SIMILARITY, false, false⟩

/-- The clause of the C6 counterexample: a `Value` argument together with an
explicit variable. -/
def c6Clause : AtomicClause :=
  ⟨some (.id "http://ex.org/s"), some "http://ex.org/p", some (.val "a"), some "?v",
    .EXACT, true, false⟩

/-- A concrete well-formed query exercising every serialized field: an
atomic clause and a union clause, a custom graph, limit, lang, and a
non-zero minimum score. -/
def c2Query : UnarySelectQuery :=
  ⟨⟨DEFAULT_PREFIXES,
    [.atomic exactClause,
     .disj (some (.var ("?" ++ SUBJVAR))) [.atomic exactClause] false],
    "knowledgeGraph", 10, "it", some (3 : Rat)⟩,
   .var ("?" ++ SUBJVAR)⟩

/-! ## Supporting lemmas -/

theorem dget_dinsert (d : Dict) (k : String) (v : DVal) (k' : String) :
    dget (dinsert d k v) k' = if k' = k then some v else dget d k' := by
  induction d with
  | nil =>
      by_cases h : k = k'
      · simp [dinsert, dget, h]
      · simp [dinsert, dget, h, Ne.symm h]
  | cons kv rest ih =>
      obtain ⟨k0, v0⟩ := kv
      simp only [dinsert]
      by_cases h0 : k0 = k
      · subst h0
        simp only [if_pos rfl, dget]
        by_cases h1 : k0 = k'
        · subst h1
          simp
        · have h1' : ¬k' = k0 := fun hh => h1 hh.symm
          simp [h1, h1']
      · simp only [if_neg h0, dget]
        by_cases h1 : k0 = k'
        · subst h1
          simp [h0]
        · have h1' : ¬k' = k0 := fun hh => h1 hh.symm
          simp [h1, h1', ih]

theorem isKeywordAtomic_setSubject (c : Clause) (t : Term) :
    isKeywordAtomic (Clause.setSubject c t) = isKeywordAtomic c := by
  cases c <;> rfl

theorem isKeywordAtomic_shape (c : Clause) (h : isKeywordAtomic c = true) :
    ∃ a, c = .atomic a ∧ a.method = Comparison.KEYWORD := by
  cases c with
  | atomic a =>
      refine ⟨a, rfl, ?_⟩
      simpa [isKeywordAtomic] using h
  | conj s cs o => simp [isKeywordAtomic] at h
  | disj s cs o => simp [isKeywordAtomic] at h

theorem addSingle_clauses (q : UnarySelectQuery) (c : Clause) :
    (q.addSingle c).clauses =
      if isKeywordAtomic c then q.resolveAdded c :: q.clauses
      else q.clauses ++ [q.resolveAdded c] := by
  unfold UnarySelectQuery.addSingle SelectQuery.addClause UnarySelectQuery.resolveAdded
  by_cases hsub : (Clause.getSubject c).isNone <;>
    by_cases hk : isKeywordAtomic c <;>
    simp [hsub, hk, isKeywordAtomic_setSubject]

theorem isKeywordAtomic_resolveAdded (q : UnarySelectQuery) (c : Clause) :
    isKeywordAtomic (q.resolveAdded c) = isKeywordAtomic c := by
  unfold UnarySelectQuery.resolveAdded
  by_cases hsub : (Clause.getSubject c).isNone <;> simp [hsub, isKeywordAtomic_setSubject]

/-- The `add` invariant: if any top-level clause is a `KEYWORD` atomic, the
head is one.  Preserved by every single-clause `add`. -/
theorem addSingle_keyword_inv (q : UnarySelectQuery) (c : Clause)
    (h : q.clauses.any isKeywordAtomic = true →
      ∃ a rest, q.clauses = .atomic a :: rest ∧ a.method = Comparison.KEYWORD) :
    (q.addSingle c).clauses.any isKeywordAtomic = true →
      ∃ a rest, (q.addSingle c).clauses = .atomic a :: rest ∧
        a.method = Comparison.KEYWORD := by
  intro hany
  rw [addSingle_clauses] at hany ⊢
  by_cases hk : isKeywordAtomic c
  · rw [if_pos hk] at hany ⊢
    obtain ⟨a, hshape, hm⟩ := isKeywordAtomic_shape (q.resolveAdded c)
      (by rw [isKeywordAtomic_resolveAdded]; exact hk)
    exact ⟨a, q.clauses, by rw [hshape], hm⟩
  · rw [if_neg hk] at hany ⊢
    have hk' : isKeywordAtomic (q.resolveAdded c) = false := by
      rw [isKeywordAtomic_resolveAdded]
      exact Bool.not_eq_true _ ▸ by simpa using hk
    simp only [List.any_append, List.any_cons, List.any_nil, hk', Bool.or_false] at hany
    obtain ⟨a, rest, heq, hm⟩ := h hany
    exact ⟨a, rest ++ [q.resolveAdded c], by rw [heq]; simp, hm⟩

theorem buildByAdds_inv (cs : List Clause) (q : UnarySelectQuery)
    (h : q.clauses.any isKeywordAtomic = true →
      ∃ a rest, q.clauses = .atomic a :: rest ∧ a.method = Comparison.KEYWORD) :
    (cs.foldl UnarySelectQuery.addSingle q).clauses.any isKeywordAtomic = true →
      ∃ a rest, (cs.foldl UnarySelectQuery.addSingle q).clauses = .atomic a :: rest ∧
        a.method = Comparison.KEYWORD := by
  induction cs generalizing q with
  | nil => exact h
  | cons c cs ih => exact ih (q.addSingle c) (addSingle_keyword_inv q c h)

/-- `AtomicClause.__init__` on a reproducible subject and a truthy typed
argument builds exactly the expected record. -/
theorem initSubject_of_WF (t : Term) (h : queryTermWF t = true) :
    initSubject (some t) = .ok (some t) := by
  cases t with
  | id s =>
      by_cases hs : s = ""
      · subst hs
        simp [initSubject, Term.truthy, Term.pyStr]
      · have hq : pyStartsWith s "?" = false := by simpa [queryTermWF] using h
        simp [initSubject, Term.truthy, Term.pyStr, hs, hq]
  | var s =>
      have hq : pyStartsWith s "?" = true ∧ varPatternQ s = true := by
        simpa [queryTermWF] using h
      have hs : s ≠ "" := by
        intro hemp
        rw [hemp] at hq
        simpa [pyStartsWith] using hq.1
      simp [initSubject, Term.truthy, Term.pyStr, hs, hq.1, hq.2, mkVariableNamed,
        Except.map]
  | val s => simp [queryTermWF] at h

theorem initArgument_term (u : Term) (hu : u.truthy = true) (v : Option String) :
    initArgument (some (.term u)) v = .ok (some u) := by
  simp [initArgument, ArgInput.truthy, hu, instantiateArgument, Except.map]

theorem AtomicClause.make_term (t : Term) (h : queryTermWF t = true) (p : Option String)
    (u : Term) (hu : u.truthy = true) (m : Comparison) (pr op : Bool) :
    AtomicClause.make (some t) p (some (.term u)) none m pr op =
      .ok ⟨some t, p, some u, none, m, pr, op⟩ := by
  simp [AtomicClause.make, initSubject_of_WF t h, initArgument_term u hu, bind,
    Except.bind, pure, Except.pure]

theorem newId_of_WF (t : Term) (h : queryTermWF t = true) : newId t = .ok t := by
  cases t with
  | id s => rfl
  | var s => rfl
  | val s => simp [queryTermWF] at h

theorem addSingle_append (q : UnarySelectQuery) (c : Clause)
    (hsub : (Clause.getSubject c).isNone = false) (hk : isKeywordAtomic c = false) :
    q.addSingle c = { q with clauses := q.clauses ++ [c] } := by
  unfold UnarySelectQuery.addSingle SelectQuery.addClause
  simp [hsub, hk]

theorem addAtomicClause_fold (t : Term) (h : queryTermWF t = true) (o : Bool)
    (ks : List String) (hks : ks.all (fun k => k != "") = true) (cs0 : List Clause) :
    ks.foldlM
        (fun cl k => Clause.addAtomicClause cl (some RDF_TYPE) (.term (.id k)) .EXACT false false)
        (Clause.disj (some t) cs0 o) =
      .ok (.disj (some t) (cs0 ++ ks.map (fun k => Clause.atomic (kindExactClause t k))) o) := by
  induction ks generalizing cs0 with
  | nil => simp [pure, Except.pure]
  | cons k ks ih =>
      simp only [List.all_cons, Bool.and_eq_true] at hks
      have hk : Term.truthy (.id k) = true := by
        simpa [Term.truthy, Term.pyStr] using hks.1
      rw [List.foldlM_cons]
      simp only [Clause.addAtomicClause, AtomicClause.make_term t h (some RDF_TYPE) _ hk,
        Except.map, bind, Except.bind]
      exact (ih hks.2
        (cs0 ++ [Clause.atomic ⟨some t, some RDF_TYPE, some (Term.id k), none,
          Comparison.EXACT, false, false⟩])).trans (by simp [kindExactClause])

theorem addKinds_spec (q : UnarySelectQuery) (ks : List String) (n : Nat)
    (h1 : queryTermWF q.subject = true) (h2 : q.subject.truthy = true)
    (hks : ks.all (fun k => k != "") = true) :
    q.addKinds ks n = .ok ({ q with clauses := q.clauses ++ kindsEffect q.subject ks }, n) := by
  match ks with
  | [] =>
      simp [UnarySelectQuery.addKinds, kindsEffect]
  | [k0] =>
      simp only [List.all_cons, List.all_nil, Bool.and_true, Bool.and_eq_true] at hks
      have hk : Term.truthy (.id k0) = true := by
        simpa [Term.truthy, Term.pyStr] using hks
      simp only [UnarySelectQuery.addKinds,
        AtomicClause.make_term q.subject h1 (some RDF_TYPE) _ hk, bind, Except.bind,
        List.isEmpty_nil, if_true]
      rw [addSingle_append q _ (by rfl) (by rfl)]
      simp [kindsEffect, kindExactClause]
  | k0 :: k1 :: rest =>
      simp only [List.all_cons, Bool.and_eq_true] at hks
      have hk : Term.truthy (.id k0) = true := by
        simpa [Term.truthy, Term.pyStr] using hks.1
      simp only [UnarySelectQuery.addKinds,
        AtomicClause.make_term q.subject h1 (some RDF_TYPE) _ hk, bind, Except.bind,
        List.isEmpty_cons, if_false, Bool.false_eq_true]
      rw [addSingle_append q _ (by rfl) (by rfl)]
      have hcomp : compositeSubject (some q.subject) n = (some q.subject, n) := by
        simp [compositeSubject, optTermTruthy, h2]
      have hmk : mkDisjunctiveClause (some q.subject) none n =
          .ok (.disj (some q.subject) [] false, n) := by
        simp [mkDisjunctiveClause, hcomp, validateUnionClauses]
      have hfold := addAtomicClause_fold q.subject h1 false (k1 :: rest)
        (by simp only [List.all_cons, Bool.and_eq_true]; exact hks.2) []
      simp only [bind, Except.bind, hmk, hfold, List.nil_append]
      rw [addSingle_append _ _ (by rfl) (by rfl)]
      simp [kindsEffect, kindExactClause]

/-! ## Claim theorems -/

/-- C1 (counterexample): the claim "for every query and every sequence of
`add` calls, a contained `KEYWORD` atomic clause is at index 0 and
`is_scored()` is true" is false: `UnarySelectQuery(clauses=[exactClause,
kwClause])` followed by one more `add` call contains a `KEYWORD` atomic
clause at index 1, not 0 — constructor-supplied clauses are never
spliced. -/
theorem C1_counterexample :
    mkUnarySelectQuery none none none (some [.atomic exactClause, .atomic kwClause])
        "defaultGraph" (-1) "en" none 0 = .ok (c1Query, 0) ∧
    (c1Query.addSingle (.atomic exactClause)).toSelectQuery.containsKeywordClause = true ∧
    (c1Query.addSingle (.atomic exactClause)).isScored = true ∧
    (c1Query.addSingle (.atomic exactClause)).clauses.get? 1 = some (.atomic kwClause) ∧
    isKeywordAtomic ((c1Query.addSingle (.atomic exactClause)).clauses.headD
      (.atomic AtomicClause.default)) = false :=
  ⟨rfl, rfl, rfl, rfl, rfl⟩

/-- C1 (amended): for a query built from no clauses exclusively through
single-clause `add` calls, if the top-level clause list contains a `KEYWORD`
atomic clause then the clause at index 0 is a `KEYWORD` atomic clause and
`is_scored()` returns true.  (Clauses supplied to the constructor are not
spliced, and a `KEYWORD` clause nested inside a composite is neither moved
nor seen by `is_scored` — see the counterexample.) -/
theorem C1_keyword_front_amended (cs : List Clause)
    (h : (buildByAdds cs).clauses.any isKeywordAtomic = true) :
    (∃ a rest, (buildByAdds cs).clauses = .atomic a :: rest ∧
      a.method = Comparison.KEYWORD) ∧
    (buildByAdds cs).isScored = true := by
  have base : UnarySelectQuery.default.clauses.any isKeywordAtomic = true →
      ∃ a rest, UnarySelectQuery.default.clauses = .atomic a :: rest ∧
        a.method = Comparison.KEYWORD := by
    intro hfalse
    simp [UnarySelectQuery.default] at hfalse
  exact ⟨buildByAdds_inv cs UnarySelectQuery.default base h, h⟩

/-- C1 (witness): the amended claim at the one-clause sequence adding a
`KEYWORD` clause. -/
theorem C1_witness :
    (buildByAdds [.atomic kwClause]).clauses.any isKeywordAtomic = true ∧
    ((∃ a rest, (buildByAdds [.atomic kwClause]).clauses = .atomic a :: rest ∧
        a.method = Comparison.KEYWORD) ∧
      (buildByAdds [.atomic kwClause]).isScored = true) :=
  ⟨by decide, C1_keyword_front_amended [.atomic kwClause] (by decide)⟩

/-- C3 (counterexample): the claim "`add_kinds` with one kind produces one
mandatory `EXACT` clause **plus one projecting type-variable clause**" is
false: calling `add_kinds(["http://ex.org/K"])` on a fresh query appends
exactly one clause — the non-projecting `EXACT` rdf:type clause — and no
projecting clause (that clause is added by `__init__`, only when kinds are
passed to the constructor). -/
theorem C3_counterexample :
    UnarySelectQuery.default.addKinds ["http://ex.org/K"] 0 =
      .ok ({ UnarySelectQuery.default with
              clauses := [.atomic (kindExactClause (.var ("?" ++ SUBJVAR)) "http://ex.org/K")] },
           0) ∧
    (kindExactClause (.var ("?" ++ SUBJVAR)) "http://ex.org/K").project = false ∧
    (kindExactClause (.var ("?" ++ SUBJVAR)) "http://ex.org/K").method = Comparison.EXACT :=
  ⟨rfl, rfl, rfl⟩

/-- C3 (amended): `add_kinds` itself appends, for a non-empty kind list, one
mandatory non-projecting `EXACT` rdf:type atomic clause for the first kind
plus — only when there are at least two kinds — one `DisjunctiveClause` of
`EXACT` clauses sharing the query subject for the remaining kinds (never for
a single kind), and nothing for an empty list; the projecting type-variable
clause is added by the constructor, before `add_kinds` runs, when kinds are
passed there. -/
theorem C3_add_kinds_amended (q : UnarySelectQuery) (ks : List String) (n : Nat)
    (h1 : queryTermWF q.subject = true) (h2 : q.subject.truthy = true)
    (hks : ks.all (fun k => k != "") = true) :
    q.addKinds ks n = .ok ({ q with clauses := q.clauses ++ kindsEffect q.subject ks }, n) ∧
    (∀ (pfx : Option (List (String × String))) (cls : Option (List Clause)) (g : String)
        (lim : Int) (lg : String) (ms : Option Rat), ks ≠ [] →
      mkUnarySelectQuery (some q.subject) (some ks) pfx cls g lim lg ms n =
        .ok (⟨{ mkSelectQuery pfx cls g lim lg ms with
                 clauses := (mkSelectQuery pfx cls g lim lg ms).clauses ++
                   (.atomic (kindProjClause q.subject) :: kindsEffect q.subject ks) },
              q.subject⟩, n)) := by
  refine ⟨addKinds_spec q ks n h1 h2 hks, ?_⟩
  intro pfx cls g lim lg ms hne
  have hemp : ks.isEmpty = false := by
    cases ks
    · exact absurd rfl hne
    · rfl
  have hkv : Term.truthy (.var ("?" ++ KINDVAR)) = true := by decide
  simp only [mkUnarySelectQuery]
  rw [if_pos h2]
  simp only [newId_of_WF q.subject h1, bind, Except.bind, hemp, Bool.false_eq_true,
    if_false, AtomicClause.make_term q.subject h1 (some RDF_TYPE) _ hkv]
  rw [addSingle_append _ _ (by rfl) (by rfl)]
  refine (addKinds_spec _ ks n ?_ ?_ hks).trans ?_
  · exact h1
  · exact h2
  · simp [kindProjClause, List.append_assoc]

/-- C3 (witness): the amended claim at a two-kind list on a fresh query. -/
theorem C3_witness :
    UnarySelectQuery.default.addKinds ["http://ex.org/A", "http://ex.org/B"] 0 =
      .ok ({ UnarySelectQuery.default with
              clauses := UnarySelectQuery.default.clauses ++
                kindsEffect (.var ("?" ++ SUBJVAR)) ["http://ex.org/A", "http://ex.org/B"] },
           0) :=
  (C3_add_kinds_amended UnarySelectQuery.default ["http://ex.org/A", "http://ex.org/B"] 0
    (by decide) (by decide) (by decide)).1

/-- C4: constructing a `DisjunctiveClause` from a non-empty list of clauses
whose subjects are not all (Python-)equal raises
`ValueError("Invalid union clauses")`, and constructing one from clauses
that all share a single subject succeeds, returning the composite. -/
theorem C4_disjunctive_subject_validation (s : Option Term) (c0 : Clause)
    (rest : List Clause) (n : Nat) :
    (((c0 :: rest).all
        (fun c => optTermPyEq (Clause.getSubject c) (Clause.getSubject c0))) = false →
      mkDisjunctiveClause s (some (c0 :: rest)) n =
        .error "ValueError: Invalid union clauses") ∧
    (((c0 :: rest).all
        (fun c => optTermPyEq (Clause.getSubject c) (Clause.getSubject c0))) = true →
      mkDisjunctiveClause s (some (c0 :: rest)) n =
        .ok (.disj (compositeSubject s n).1 (c0 :: rest) false,
          (compositeSubject s n).2)) := by
  constructor <;> intro h <;> simp [mkDisjunctiveClause, validateUnionClauses, h]

/-- C4 (witness): validation fails on two clauses with different subjects
and succeeds on two clauses sharing one. -/
theorem C4_witness :
    mkDisjunctiveClause none (some [.atomic exactClause, .atomic c6Clause]) 0 =
      .error "ValueError: Invalid union clauses" ∧
    mkDisjunctiveClause none (some [.atomic exactClause, .atomic exactClause]) 3 =
      .ok (.disj (compositeSubject none 3).1 [.atomic exactClause, .atomic exactClause] false,
        (compositeSubject none 3).2) :=
  ⟨(C4_disjunctive_subject_validation none (.atomic exactClause) [.atomic c6Clause] 0).1
      (by decide),
   (C4_disjunctive_subject_validation none (.atomic exactClause) [.atomic exactClause] 3).2
      (by decide)⟩

/-- C5 (counterexample): the claim "`from_dict` raises a descriptive error
on any unrecognized top-level key" is false: a dict with the unknown key
`bogus` deserializes without error — the key is only logged
(`logging.error("Illegal key %s", key)`) and skipped. -/
theorem C5_counterexample :
    UnarySelectQuery.fromDict UnarySelectQuery.default [("bogus", DVal.s "x")] 0 =
      .ok (UnarySelectQuery.default, 0, ["Illegal key bogus"]) := rfl

/-- C5 (amended): an unrecognized top-level key is logged
(`Illegal key <key>`) and ignored, leaving the query unchanged — no error is
raised; any exception that is raised during deserialization is wrapped into
a single `ValueError("Malformed query due to: <cause>")` carrying the
original cause. -/
theorem C5_from_dict_amended :
    (∀ (q : UnarySelectQuery) (n : Nat) (logs : List String) (key : String) (v : DVal),
      key ∉ (["subject", "kinds", "clauses", "graph", "limit", "lang",
              "min_score", "minScore", "dataset"] : List String) →
      UnarySelectQuery.fromDictStep (q, n, logs) (key, v) =
        .ok (q, n, logs ++ ["Illegal key " ++ key])) ∧
    (∀ (q : UnarySelectQuery) (data : Dict) (n : Nat) (e : String),
      q.fromDict data n = .error e →
      ∃ cause, e = "ValueError: Malformed query due to: " ++ cause) := by
  constructor
  · intro q n logs key v hkey
    simp only [List.mem_cons, List.mem_singleton, not_or] at hkey
    unfold UnarySelectQuery.fromDictStep
    split <;> simp_all
  · intro q data n e h
    unfold UnarySelectQuery.fromDict at h
    cases hfold : data.foldlM UnarySelectQuery.fromDictStep (q, n, []) with
    | ok st => rw [hfold] at h; simp [Except.mapError] at h
    | error c =>
        rw [hfold] at h
        simp only [Except.mapError] at h
        exact ⟨c, (Except.error.inj h).symm⟩

/-- C5 (witness): the amended claim at the unknown key `bogus` and at a dict
whose `limit` entry makes `int()` raise. -/
theorem C5_witness :
    UnarySelectQuery.fromDictStep (UnarySelectQuery.default, 0, []) ("bogus", DVal.s "x") =
      .ok (UnarySelectQuery.default, 0, ["Illegal key bogus"]) ∧
    ∃ cause,
      "ValueError: Malformed query due to: ValueError: invalid literal for int(): abc" =
        "ValueError: Malformed query due to: " ++ cause :=
  ⟨C5_from_dict_amended.1 UnarySelectQuery.default 0 [] "bogus" (DVal.s "x") (by decide),
   C5_from_dict_amended.2 UnarySelectQuery.default [("limit", DVal.s "abc")] 0 _ rfl⟩

/-- C7 (counterexample): the claim's expected dict for the
`add_fetch_clause` example is wrong: the actual serialization carries a
`subject` entry inside the clause (assigned to the clause by `add`), so the
query does not serialize to the claimed dict. -/
theorem C7_counterexample :
    aliceQuery.toDict "latest" = aliceActualDict ∧ aliceActualDict ≠ aliceClaimedDict :=
  ⟨rfl, by decide⟩

/-- C7 (amended): the example query serializes to the claimed dict plus a
`subject: "http://ex.org/alice"` entry inside the clause; and instead of
rendering an OPTIONAL block, the SPARQL generator raises
`ValueError("Clause not defined ...")` — the fetch clause has neither
argument nor variable, so `is_defined()` is false. -/
theorem C7_fetch_example_amended :
    mkUnarySelectQuery (some (.id "http://ex.org/alice")) none none none
        "defaultGraph" (-1) "en" none 0 = .ok (aliceBase, 0) ∧
    aliceQuery.toDict "latest" = aliceActualDict ∧
    (∀ n : Nat, SPARQLGenerator.generateQuery aliceQuery n =
      .error "ValueError: Clause not defined http://ex.org/alice http://ex.org/age None") :=
  ⟨rfl, rfl, fun _ => rfl⟩

/-- C8: the claim is right about `SelectQuery.add` — a clause list is
wrapped into a `ConjunctiveClause` (type `"conjunction"` or absent) or a
`DisjunctiveClause` (type `"union"`) and appended — but
`UnarySelectQuery.add` with a list executes `return super(clause, **kwargs)`
and raises `TypeError`, so on a `UnarySelectQuery` nothing is wrapped or
appended (code bug). -/
theorem C8_list_add :
    SelectQuery.addList (mkSelectQuery none none "defaultGraph" (-1) "en" none)
        [.atomic exactClause] "conjunction" false none 5 =
      .ok ({ mkSelectQuery none none "defaultGraph" (-1) "en" none with
              clauses := [.conj (some (.var (freshVarName 5))) [.atomic exactClause] false] },
           6) ∧
    SelectQuery.addList (mkSelectQuery none none "defaultGraph" (-1) "en" none)
        [.atomic exactClause] "union" false (some (.var ("?" ++ SUBJVAR))) 5 =
      .ok ({ mkSelectQuery none none "defaultGraph" (-1) "en" none with
              clauses := [.disj (some (.var ("?" ++ SUBJVAR))) [.atomic exactClause] false] },
           5) ∧
    UnarySelectQuery.addList UnarySelectQuery.default [.atomic exactClause] =
      .error "TypeError: super() argument 1 must be a type, not list" :=
  ⟨rfl, rfl, rfl⟩

/-- C9 (counterexample): the claim "a defined SIMILARITY clause produces no
clause text" is false: the generator returns the bare triple terminator
`" .\n"` (non-empty) for a non-optional defined SIMILARITY clause. -/
theorem C9_counterexample :
    similarityClause.isDefined = true ∧
    SPARQLGenerator.generateClause (.atomic similarityClause) 0 = .ok (" .\n", 0) ∧
    " .\n" ≠ "" :=
  ⟨rfl, rfl, by decide⟩

/-- C9 (amended): for every defined SIMILARITY clause the generator does not
raise and produces no clause content — only the terminator `" .\n"`, or the
empty block `"OPTIONAL {  }\n"` when the clause is optional; and a method
string that names no `Comparison` member is rejected by the enum coercion
`Comparison(clause.method)` with a `ValueError` naming it (every actual enum
member is handled, so the generator's own unknown-method branch is
unreachable for enum values). -/
theorem C9_similarity_amended (c : AtomicClause) (n : Nat)
    (hd : c.isDefined = true) (hm : c.method = .SIMILARITY) :
    SPARQLGenerator.generateClause (.atomic c) n =
      .ok (if c.optional then "OPTIONAL \x7b  \x7d\n" else " .\n", n) ∧
    (∀ s, Comparison.ofValue s = none →
      SPARQLGenerator.generateAtomicWithMethodStr c s n =
        .error ("ValueError: \x27" ++ s ++ "\x27 is not a valid Comparison")) := by
  constructor
  · unfold SPARQLGenerator.generateClause
    rw [hm]
    by_cases hopt : c.optional
    · simp [hd, hopt, Except.map]
    · simp [hd, hopt, Except.map]
  · intro s hs
    simp [SPARQLGenerator.generateAtomicWithMethodStr, Comparison.coerce, hs]

/-- C9 (witness): the amended claim at the concrete SIMILARITY clause and
the unknown method string `"bogus"`. -/
theorem C9_witness :
    SPARQLGenerator.generateClause (.atomic similarityClause) 7 = .ok (" .\n", 7) ∧
    SPARQLGenerator.generateAtomicWithMethodStr similarityClause "bogus" 7 =
      .error ("ValueError: \x27bogus\x27 is not a valid Comparison") := by
  have h := C9_similarity_amended similarityClause 7 rfl rfl
  exact ⟨h.1, h.2 "bogus" rfl⟩

/-- C10: a single clause passed to `UnarySelectQuery.add` with subject
`None` receives the query's subject before insertion; the inserted clause
(at the front for a `KEYWORD` atomic, at the back otherwise) therefore has a
non-`None` subject equal to the query's. -/
theorem C10_unary_add_assigns_subject (q : UnarySelectQuery) (c : Clause)
    (h : Clause.getSubject c = none) :
    ((q.addSingle c).clauses = Clause.setSubject c q.subject :: q.clauses ∨
     (q.addSingle c).clauses = q.clauses ++ [Clause.setSubject c q.subject]) ∧
    Clause.getSubject (Clause.setSubject c q.subject) = some q.subject := by
  have hres : q.resolveAdded c = Clause.setSubject c q.subject := by
    unfold UnarySelectQuery.resolveAdded
    simp [h]
  constructor
  · rw [addSingle_clauses, hres]
    by_cases hk : isKeywordAtomic c <;> simp [hk]
  · cases c <;> simp [Clause.setSubject, Clause.getSubject]

/-- C10 (witness): the property at a concrete subject-less clause. -/
theorem C10_witness :
    ((UnarySelectQuery.default.addSingle
        (.atomic ⟨none, some "http://ex.org/p", none, none, .ANY, true, false⟩)).clauses =
      Clause.setSubject (.atomic ⟨none, some "http://ex.org/p", none, none, .ANY, true, false⟩)
        (.var ("?" ++ SUBJVAR)) :: UnarySelectQuery.default.clauses ∨
     (UnarySelectQuery.default.addSingle
        (.atomic ⟨none, some "http://ex.org/p", none, none, .ANY, true, false⟩)).clauses =
      UnarySelectQuery.default.clauses ++
        [Clause.setSubject (.atomic ⟨none, some "http://ex.org/p", none, none, .ANY, true, false⟩)
          (.var ("?" ++ SUBJVAR))]) ∧
    Clause.getSubject
        (Clause.setSubject (.atomic ⟨none, some "http://ex.org/p", none, none, .ANY, true, false⟩)
          (.var ("?" ++ SUBJVAR))) =
      some (.var ("?" ++ SUBJVAR)) :=
  C10_unary_add_assigns_subject UnarySelectQuery.default
    (.atomic ⟨none, some "http://ex.org/p", none, none, .ANY, true, false⟩) rfl

/-- C6 (amended): `AtomicClause.to_dict` always contains `property`,
`method`, `project` and `optional`; it contains `subject` exactly when the
clause's subject is truthy; when the explicit variable is unset it contains
exactly one of `value`/`variable`/`identifier`, chosen by the runtime type
of the argument (and none of them when the argument is unset — e.g. a fetch
clause); when the explicit variable is set, a `variable` entry is always
present **in addition** to the argument's key (two argument-carrying keys
when the argument is a truthy Value or Identifier — the claim's "exactly
one" fails there); the `type: "atomic"` discriminator appears for version
`"latest"` and not for `"v1.0.0"`. -/
theorem C6_to_dict_amended (c : AtomicClause) (version : String) :
    dget (c.toDict version) "property" = some (optStrDVal c.property) ∧
    dget (c.toDict version) "method" = some (DVal.s c.method.value) ∧
    dget (c.toDict version) "project" = some (DVal.b c.project) ∧
    dget (c.toDict version) "optional" = some (DVal.b c.optional) ∧
    (dget (c.toDict version) "subject").isSome = optTermTruthy c.subject ∧
    (c.variable_ = none →
      countArgKeys (c.toDict version) =
        match c.argument with | some t => if t.truthy then 1 else 0 | none => 0) ∧
    (∀ s : String, c.variable_ = none → s ≠ "" →
      (c.argument = some (.val s) → dget (c.toDict version) "value" = some (DVal.s s)) ∧
      (c.argument = some (.var s) → dget (c.toDict version) "variable" = some (DVal.s s)) ∧
      (c.argument = some (.id s) → dget (c.toDict version) "identifier" = some (DVal.s s))) ∧
    (∀ v : String, c.variable_ = some v → v ≠ "" →
      dget (c.toDict version) "variable" = some (DVal.s v)) ∧
    (∀ v s : String, c.variable_ = some v → v ≠ "" → c.argument = some (.val s) → s ≠ "" →
      countArgKeys (c.toDict version) = 2) ∧
    dget (c.toDict "latest") "type" = some (DVal.s "atomic") ∧
    dget (c.toDict "v1.0.0") "type" = none := by
  refine ⟨?_, ?_, ?_, ?_, ?_, ?_, ?_, ?_, ?_, ?_, ?_⟩
  · unfold AtomicClause.toDict
    repeat' split
    all_goals simp [dget_dinsert, dget]
  · unfold AtomicClause.toDict
    repeat' split
    all_goals simp [dget_dinsert, dget]
  · unfold AtomicClause.toDict
    repeat' split
    all_goals simp [dget_dinsert, dget]
  · unfold AtomicClause.toDict
    repeat' split
    all_goals simp [dget_dinsert, dget]
  · unfold AtomicClause.toDict
    repeat' split
    all_goals simp_all [dget_dinsert, dget, optTermTruthy]
  · intro h
    obtain ⟨subj, prop, arg, varb, m, pr, op⟩ := c
    simp only at h
    subst h
    unfold AtomicClause.toDict
    dsimp only [Term.truthy, Term.pyStr]
    repeat' split
    all_goals simp_all [countArgKeys, dinsert, dget, List.filter, Term.truthy, Term.pyStr]
  · intro s h hs
    obtain ⟨subj, prop, arg, varb, m, pr, op⟩ := c
    simp only at h
    subst h
    refine ⟨?_, ?_, ?_⟩ <;> intro ha <;> simp only at ha <;> subst ha <;>
      unfold AtomicClause.toDict <;> dsimp only [Term.truthy, Term.pyStr] <;>
      repeat' split
    all_goals simp_all [dget_dinsert, dget, dinsert]
  · intro v h hv
    obtain ⟨subj, prop, arg, varb, m, pr, op⟩ := c
    simp only at h
    subst h
    unfold AtomicClause.toDict
    dsimp only [Term.truthy, Term.pyStr]
    repeat' split
    all_goals simp_all [dget_dinsert, dget, dinsert]
  · intro v s h hv ha hs
    obtain ⟨subj, prop, arg, varb, m, pr, op⟩ := c
    simp only at h ha
    subst h
    subst ha
    unfold AtomicClause.toDict
    dsimp only [Term.truthy, Term.pyStr]
    repeat' split
    all_goals simp_all [countArgKeys, dinsert, dget, List.filter]
  · unfold AtomicClause.toDict
    repeat' split
    all_goals simp_all [dget_dinsert, dget]
  · unfold AtomicClause.toDict
    repeat' split
    all_goals simp_all [dget_dinsert, dget]

/-- C6 (witness): the amended claim at the clause with a Value argument and
an explicit variable — both `value` and `variable` keys are present. -/
theorem C6_witness :
    countArgKeys (c6Clause.toDict "latest") = 2 ∧
    dget (c6Clause.toDict "latest") "variable" = some (DVal.s "?v") :=
  ⟨(C6_to_dict_amended c6Clause "latest").2.2.2.2.2.2.2.2.1 "?v" "a" rfl (by decide) rfl
      (by decide),
   (C6_to_dict_amended c6Clause "latest").2.2.2.2.2.2.2.1 "?v" rfl (by decide)⟩

theorem subjectWF_truthy (t : Option Term) (h : subjectWF t = true) :
    optTermTruthy t = true := by
  match t with
  | some (.id s) =>
      simp only [subjectWF, Bool.and_eq_true] at h
      simpa [optTermTruthy, Term.truthy, Term.pyStr] using h.1.2
  | some (.var s) =>
      simp only [subjectWF, Bool.and_eq_true, varPatternQ] at h
      simpa [optTermTruthy, Term.truthy, Term.pyStr] using h.2.1
  | some (.val s) => simp [subjectWF] at h
  | none => simp [subjectWF] at h

theorem startsQ_ne_sentinel (s : String) (h : pyStartsWith s "?" = true) :
    s ≠ "query.subject" := by
  intro he
  rw [he] at h
  exact absurd h (by decide)

theorem resolveSubject_of_WF (t : Option Term) (h : subjectWF t = true) :
    resolveSubjectKwarg (some (.val (optTermPyStr t))) = .ok t := by
  match t with
  | some (.id s) =>
      simp only [subjectWF, Bool.and_eq_true] at h
      obtain ⟨⟨h1, h2⟩, h3⟩ := h
      have hs : s ≠ "" := by intro he; rw [he] at h2; simp at h2
      have hq : s ≠ "query.subject" := by intro he; rw [he] at h3; simp at h3
      have h1' : isValidId s = true := h1
      unfold resolveSubjectKwarg
      simp [optTermPyStr, Term.pyStr, hq, hs, h1']
  | some (.var s) =>
      simp only [subjectWF, Bool.and_eq_true] at h
      obtain ⟨h1, h2⟩ := h
      have hs : s ≠ "" := by
        have h2' := h2
        simp only [varPatternQ, Bool.and_eq_true] at h2'
        simpa using h2'.1
      have hq : s ≠ "query.subject" := startsQ_ne_sentinel s h1
      have hvalid : isValidId s = false := by simp [isValidId, h1]
      have hvv : isValidVariableValue s = true := by
        simp [isValidVariableValue, hs, h1, h2]
      unfold resolveSubjectKwarg
      simp [optTermPyStr, Term.pyStr, hq, hs, hvalid, hvv]
  | some (.val s) => simp [subjectWF] at h
  | none => simp [subjectWF] at h

theorem varPatternQ_ne_empty (s : String) (h : varPatternQ s = true) : s ≠ "" := by
  simp only [varPatternQ, Bool.and_eq_true] at h
  simpa using h.1

/-- Round trip of one well-formed atomic clause through
`to_dict("latest")` / `from_dict`: the result serializes identically, keeps
the subject and the method, and consumes no fresh names. -/
theorem atomic_fromDict_roundtrip (a : AtomicClause) (nn : Nat) (hwf : a.WF = true) :
    ∃ a', AtomicClause.fromDict AtomicClause.default (a.toDict "latest")
        (some (.val (optTermPyStr a.subject))) nn = .ok (a', nn) ∧
      a'.toDict "latest" = a.toDict "latest" ∧
      a'.subject = a.subject ∧ a'.method = a.method := by
  obtain ⟨subj, prop, arg, varb, m, pr, op⟩ := a
  simp only [AtomicClause.WF, Bool.and_eq_true] at hwf
  obtain ⟨⟨⟨hsub, hprop⟩, harg⟩, hvar⟩ := hwf
  have htruthy : optTermTruthy subj = true := subjectWF_truthy subj hsub
  obtain ⟨p, rfl⟩ : ∃ p, prop = some p := by
    cases prop
    · simp at hprop
    · exact ⟨_, rfl⟩
  match arg, varb with
  | none, none =>
      have hshape : AtomicClause.toDict ⟨subj, some p, none, none, m, pr, op⟩ "latest" =
          [("property", DVal.s p), ("method", DVal.s m.value), ("project", DVal.b pr),
           ("optional", DVal.b op), ("subject", DVal.s (optTermPyStr subj)),
           ("type", DVal.s "atomic")] := by
        simp [AtomicClause.toDict, dinsert, htruthy, optStrDVal]
      refine ⟨⟨subj, some p, none, none, m, pr, op⟩, ?_, rfl, rfl, rfl⟩
      rw [hshape]
      unfold AtomicClause.fromDict
      simp only [resolveSubject_of_WF subj hsub, bind, Except.bind]
      simp [List.foldlM, AtomicClause.fromDictStep, htruthy, Comparison.coerce,
        Comparison.ofValue_value, DVal.pyBool, DVal.truthy, Except.map, bind, Except.bind,
        pure, Except.pure, AtomicClause.default]
  | some (.val u), none =>
      simp only [argWF, Bool.and_eq_true] at harg
      obtain ⟨⟨hu1, hu2⟩, hu3⟩ := harg
      have hu3' : u ≠ "" := by intro he; rw [he] at hu3; simp at hu3
      have hu1' : (pyStartsWith u "<" && pyEndsWith u ">") = false := by
        revert hu1
        cases pyStartsWith u "<" <;> cases pyEndsWith u ">" <;> simp
      have hu2' : pyStartsWith u "?" = false := by
        revert hu2
        cases pyStartsWith u "?" <;> simp
      have hshape : AtomicClause.toDict ⟨subj, some p, some (.val u), none, m, pr, op⟩
          "latest" =
          [("property", DVal.s p), ("method", DVal.s m.value), ("project", DVal.b pr),
           ("optional", DVal.b op), ("subject", DVal.s (optTermPyStr subj)),
           ("value", DVal.s u), ("type", DVal.s "atomic")] := by
        simp [AtomicClause.toDict, dinsert, htruthy, optStrDVal, Term.truthy, Term.pyStr,
          hu3']
      refine ⟨⟨subj, some p, some (.val u), none, m, pr, op⟩, ?_, rfl, rfl, rfl⟩
      rw [hshape]
      unfold AtomicClause.fromDict
      simp only [resolveSubject_of_WF subj hsub, bind, Except.bind]
      simp [List.foldlM, AtomicClause.fromDictStep, htruthy, mkValue, Comparison.coerce,
        Comparison.ofValue_value, DVal.pyBool, DVal.truthy, Except.map, bind, Except.bind,
        pure, Except.pure, AtomicClause.default, hu1', hu2']
  | some (.id u), none =>
      simp only [argWF, Bool.and_eq_true] at harg
      obtain ⟨hu1, hu2⟩ := harg
      have hu2' : u ≠ "" := by intro he; rw [he] at hu2; simp at hu2
      have hu1' : pyStartsWith u "?" = false := by
        revert hu1
        cases pyStartsWith u "?" <;> simp
      have hshape : AtomicClause.toDict ⟨subj, some p, some (.id u), none, m, pr, op⟩
          "latest" =
          [("property", DVal.s p), ("method", DVal.s m.value), ("project", DVal.b pr),
           ("optional", DVal.b op), ("subject", DVal.s (optTermPyStr subj)),
           ("identifier", DVal.s u), ("type", DVal.s "atomic")] := by
        simp [AtomicClause.toDict, dinsert, htruthy, optStrDVal, Term.truthy, Term.pyStr,
          hu2']
      refine ⟨⟨subj, some p, some (.id u), none, m, pr, op⟩, ?_, rfl, rfl, rfl⟩
      rw [hshape]
      unfold AtomicClause.fromDict
      simp only [resolveSubject_of_WF subj hsub, bind, Except.bind]
      simp [List.foldlM, AtomicClause.fromDictStep, htruthy, isValidId, Comparison.coerce,
        Comparison.ofValue_value, DVal.pyBool, DVal.truthy, Except.map, bind, Except.bind,
        pure, Except.pure, AtomicClause.default, hu1']
  | some (.var u), none =>
      simp only [argWF, Bool.and_eq_true] at harg
      obtain ⟨⟨hu1, hu2⟩, hu3⟩ := harg
      have hune : u ≠ "" := varPatternQ_ne_empty u hu2
      have hsent : u ≠ "query.subject" := by intro he; rw [he] at hu3; simp at hu3
      have hshape : AtomicClause.toDict ⟨subj, some p, some (.var u), none, m, pr, op⟩
          "latest" =
          [("property", DVal.s p), ("method", DVal.s m.value), ("project", DVal.b pr),
           ("optional", DVal.b op), ("subject", DVal.s (optTermPyStr subj)),
           ("variable", DVal.s u), ("type", DVal.s "atomic")] := by
        simp [AtomicClause.toDict, dinsert, htruthy, optStrDVal, Term.truthy, Term.pyStr,
          hune]
      have hshape' : AtomicClause.toDict ⟨subj, some p, some (.var u), some u, m, pr, op⟩
          "latest" =
          [("property", DVal.s p), ("method", DVal.s m.value), ("project", DVal.b pr),
           ("optional", DVal.b op), ("subject", DVal.s (optTermPyStr subj)),
           ("variable", DVal.s u), ("type", DVal.s "atomic")] := by
        simp [AtomicClause.toDict, dinsert, htruthy, optStrDVal, Term.truthy, Term.pyStr,
          hune]
      refine ⟨⟨subj, some p, some (.var u), some u, m, pr, op⟩, ?_,
        by rw [hshape, hshape'], rfl, rfl⟩
      rw [hshape]
      unfold AtomicClause.fromDict
      simp only [resolveSubject_of_WF subj hsub, bind, Except.bind]
      simp [List.foldlM, AtomicClause.fromDictStep, htruthy, Comparison.coerce,
        Comparison.ofValue_value, DVal.pyBool, DVal.truthy, Except.map, bind, Except.bind,
        pure, Except.pure, AtomicClause.default, hsent, hune, mkVariable, mkVariableNamed,
        hu1, hu2]
  | none, some v =>
      simp only at hvar
      simp only [varAttrWF, Bool.and_eq_true] at hvar
      obtain ⟨⟨hv1, hv2⟩, hv3⟩ := hvar
      have hvne : v ≠ "" := varPatternQ_ne_empty v hv2
      have hsent : v ≠ "query.subject" := by intro he; rw [he] at hv3; simp at hv3
      have hshape : AtomicClause.toDict ⟨subj, some p, none, some v, m, pr, op⟩ "latest" =
          [("property", DVal.s p), ("method", DVal.s m.value), ("project", DVal.b pr),
           ("optional", DVal.b op), ("subject", DVal.s (optTermPyStr subj)),
           ("variable", DVal.s v), ("type", DVal.s "atomic")] := by
        simp [AtomicClause.toDict, dinsert, htruthy, optStrDVal, hvne]
      have hshape' : AtomicClause.toDict ⟨subj, some p, some (.var v), some v, m, pr, op⟩
          "latest" =
          [("property", DVal.s p), ("method", DVal.s m.value), ("project", DVal.b pr),
           ("optional", DVal.b op), ("subject", DVal.s (optTermPyStr subj)),
           ("variable", DVal.s v), ("type", DVal.s "atomic")] := by
        simp [AtomicClause.toDict, dinsert, htruthy, optStrDVal, Term.truthy, Term.pyStr,
          hvne]
      refine ⟨⟨subj, some p, some (.var v), some v, m, pr, op⟩, ?_,
        by rw [hshape, hshape'], rfl, rfl⟩
      rw [hshape]
      unfold AtomicClause.fromDict
      simp only [resolveSubject_of_WF subj hsub, bind, Except.bind]
      simp [List.foldlM, AtomicClause.fromDictStep, htruthy, Comparison.coerce,
        Comparison.ofValue_value, DVal.pyBool, DVal.truthy, Except.map, bind, Except.bind,
        pure, Except.pure, AtomicClause.default, hsent, hvne, mkVariable, mkVariableNamed,
        hv1, hv2]
  | some (.val u), some v =>
      simp only [argWF, Bool.and_eq_true] at harg
      obtain ⟨⟨hu1, hu2⟩, hu3⟩ := harg
      have hu3' : u ≠ "" := by intro he; rw [he] at hu3; simp at hu3
      have hu1' : (pyStartsWith u "<" && pyEndsWith u ">") = false := by
        revert hu1
        cases pyStartsWith u "<" <;> cases pyEndsWith u ">" <;> simp
      have hu2' : pyStartsWith u "?" = false := by
        revert hu2
        cases pyStartsWith u "?" <;> simp
      simp only at hvar
      simp only [varAttrWF, Bool.and_eq_true] at hvar
      obtain ⟨⟨hv1, hv2⟩, hv3⟩ := hvar
      have hvne : v ≠ "" := varPatternQ_ne_empty v hv2
      have hsent : v ≠ "query.subject" := by intro he; rw [he] at hv3; simp at hv3
      have hshape : AtomicClause.toDict ⟨subj, some p, some (.val u), some v, m, pr, op⟩
          "latest" =
          [("property", DVal.s p), ("method", DVal.s m.value), ("project", DVal.b pr),
           ("optional", DVal.b op), ("subject", DVal.s (optTermPyStr subj)),
           ("value", DVal.s u), ("variable", DVal.s v), ("type", DVal.s "atomic")] := by
        simp [AtomicClause.toDict, dinsert, htruthy, optStrDVal, Term.truthy, Term.pyStr,
          hu3', hvne]
      refine ⟨⟨subj, some p, some (.val u), some v, m, pr, op⟩, ?_, rfl, rfl, rfl⟩
      rw [hshape]
      unfold AtomicClause.fromDict
      simp only [resolveSubject_of_WF subj hsub, bind, Except.bind]
      simp [List.foldlM, AtomicClause.fromDictStep, htruthy, mkValue, Comparison.coerce,
        Comparison.ofValue_value, DVal.pyBool, DVal.truthy, Except.map, bind, Except.bind,
        pure, Except.pure, AtomicClause.default, hu1', hu2', hsent, hvne, mkVariable,
        mkVariableNamed, hv1, hv2]
  | some (.id u), some v =>
      simp only [argWF, Bool.and_eq_true] at harg
      obtain ⟨hu1, hu2⟩ := harg
      have hu2' : u ≠ "" := by intro he; rw [he] at hu2; simp at hu2
      have hu1' : pyStartsWith u "?" = false := by
        revert hu1
        cases pyStartsWith u "?" <;> simp
      simp only at hvar
      simp only [varAttrWF, Bool.and_eq_true] at hvar
      obtain ⟨⟨hv1, hv2⟩, hv3⟩ := hvar
      have hvne : v ≠ "" := varPatternQ_ne_empty v hv2
      have hsent : v ≠ "query.subject" := by intro he; rw [he] at hv3; simp at hv3
      have hshape : AtomicClause.toDict ⟨subj, some p, some (.id u), some v, m, pr, op⟩
          "latest" =
          [("property", DVal.s p), ("method", DVal.s m.value), ("project", DVal.b pr),
           ("optional", DVal.b op), ("subject", DVal.s (optTermPyStr subj)),
           ("identifier", DVal.s u), ("variable", DVal.s v), ("type", DVal.s "atomic")] := by
        simp [AtomicClause.toDict, dinsert, htruthy, optStrDVal, Term.truthy, Term.pyStr,
          hu2', hvne]
      refine ⟨⟨subj, some p, some (.id u), some v, m, pr, op⟩, ?_, rfl, rfl, rfl⟩
      rw [hshape]
      unfold AtomicClause.fromDict
      simp only [resolveSubject_of_WF subj hsub, bind, Except.bind]
      simp [List.foldlM, AtomicClause.fromDictStep, htruthy, isValidId, Comparison.coerce,
        Comparison.ofValue_value, DVal.pyBool, DVal.truthy, Except.map, bind, Except.bind,
        pure, Except.pure, AtomicClause.default, hu1', hsent, hvne, mkVariable,
        mkVariableNamed, hv1, hv2]
  | some (.var u), some v =>
      simp only [argWF, Bool.and_eq_true] at harg
      obtain ⟨⟨hu1, hu2⟩, hu3⟩ := harg
      have hune : u ≠ "" := varPatternQ_ne_empty u hu2
      simp only at hvar
      simp only [varAttrWF, Bool.and_eq_true] at hvar
      obtain ⟨⟨hv1, hv2⟩, hv3⟩ := hvar
      have hvne : v ≠ "" := varPatternQ_ne_empty v hv2
      have hsent : v ≠ "query.subject" := by intro he; rw [he] at hv3; simp at hv3
      have hshape : AtomicClause.toDict ⟨subj, some p, some (.var u), some v, m, pr, op⟩
          "latest" =
          [("property", DVal.s p), ("method", DVal.s m.value), ("project", DVal.b pr),
           ("optional", DVal.b op), ("subject", DVal.s (optTermPyStr subj)),
           ("variable", DVal.s v), ("type", DVal.s "atomic")] := by
        simp [AtomicClause.toDict, dinsert, htruthy, optStrDVal, Term.truthy, Term.pyStr,
          hune, hvne]
      have hshape' : AtomicClause.toDict ⟨subj, some p, some (.var v), some v, m, pr, op⟩
          "latest" =
          [("property", DVal.s p), ("method", DVal.s m.value), ("project", DVal.b pr),
           ("optional", DVal.b op), ("subject", DVal.s (optTermPyStr subj)),
           ("variable", DVal.s v), ("type", DVal.s "atomic")] := by
        simp [AtomicClause.toDict, dinsert, htruthy, optStrDVal, Term.truthy, Term.pyStr,
          hvne]
      refine ⟨⟨subj, some p, some (.var v), some v, m, pr, op⟩, ?_,
        by rw [hshape, hshape'], rfl, rfl⟩
      rw [hshape]
      unfold AtomicClause.fromDict
      simp only [resolveSubject_of_WF subj hsub, bind, Except.bind]
      simp [List.foldlM, AtomicClause.fromDictStep, htruthy, Comparison.coerce,
        Comparison.ofValue_value, DVal.pyBool, DVal.truthy, Except.map, bind, Except.bind,
        pure, Except.pure, AtomicClause.default, hsent, hvne, mkVariable, mkVariableNamed,
        hv1, hv2]

theorem dget_toDict_subject (c : AtomicClause) (version : String)
    (h : optTermTruthy c.subject = true) :
    dget (c.toDict version) "subject" = some (DVal.s (optTermPyStr c.subject)) := by
  unfold AtomicClause.toDict
  repeat' split
  all_goals simp_all [dget_dinsert, dget]

theorem dget_toDict_type_latest (c : AtomicClause) :
    dget (c.toDict "latest") "type" = some (DVal.s "atomic") := by
  unfold AtomicClause.toDict
  repeat' split
  all_goals simp_all [dget_dinsert, dget]

theorem subjectWF_isSome (t : Option Term) (h : subjectWF t = true) : t.isNone = false := by
  match t with
  | some _ => rfl
  | none => simp [subjectWF] at h

theorem conj_toDict_shape (s : Option Term) (cs : List Clause) (o : Bool) :
    Clause.toDict (.conj s cs o) "latest" =
      [("clauses", DVal.l (Clause.toDictList cs)), ("type", DVal.s "conjunction")] ++
        (if o then [("optional", DVal.b true)] else []) := by
  cases o <;> simp [Clause.toDict, dinsert]

theorem disj_toDict_shape (s : Option Term) (cs : List Clause) (o : Bool) :
    Clause.toDict (.disj s cs o) "latest" =
      [("subject", match s with | some t => DVal.s t.pyStr | none => DVal.null),
       ("clauses", DVal.l (Clause.toDictList cs)), ("type", DVal.s "union")] := by
  simp [Clause.toDict, dinsert]

/-- One well-formed atomic child of a composite round trips through the
shared child-rebuilding loop. -/
theorem compositeChild_roundtrip (a : AtomicClause) (inh : Option Term) (nn : Nat)
    (hwf : a.WF = true) :
    ∃ a', compositeChildFromDict (DVal.d (a.toDict "latest")) inh nn =
        .ok (.atomic a', nn) ∧
      a'.toDict "latest" = a.toDict "latest" := by
  have hsub : subjectWF a.subject = true := by
    simp only [AtomicClause.WF, Bool.and_eq_true] at hwf
    exact hwf.1.1.1
  have htruthy : optTermTruthy a.subject = true := subjectWF_truthy _ hsub
  have hchild : childSubject (a.toDict "latest") inh = some (.val (optTermPyStr a.subject)) := by
    simp [childSubject, dget_toDict_subject a "latest" htruthy, dvalToSubjTerm]
  obtain ⟨a', hfd, hdict, hsubj, hmeth⟩ := atomic_fromDict_roundtrip a nn hwf
  refine ⟨a', ?_, hdict⟩
  simp [compositeChildFromDict, hchild, hfd, Except.map]

/-- The child-rebuilding fold over a serialized list of well-formed atomic
children: rebuilt children serialize identically and no names are minted. -/
theorem compositeChildren_roundtrip (cs : List Clause) :
    ∀ (inh : Option Term) (acc : List Clause) (nn : Nat),
    cs.all Clause.isAtomicWF = true →
    ∃ cs', (Clause.toDictList cs).foldlM
        (fun acc2 item => (compositeChildFromDict item inh acc2.2).map
          (fun p => (acc2.1 ++ [p.1], p.2))) (acc, nn) = .ok (acc ++ cs', nn) ∧
      Clause.toDictList cs' = Clause.toDictList cs := by
  induction cs with
  | nil =>
      intro inh acc nn _
      exact ⟨[], by simp [Clause.toDictList, pure, Except.pure], rfl⟩
  | cons c rest ih =>
      intro inh acc nn hwf
      simp only [List.all_cons, Bool.and_eq_true] at hwf
      match c, hwf with
      | .atomic a, ⟨ha, hrest⟩ =>
          obtain ⟨a', hchild, hdict⟩ := compositeChild_roundtrip a inh nn ha
          obtain ⟨cs', hfold, hdicts⟩ := ih inh (acc ++ [.atomic a']) nn hrest
          refine ⟨.atomic a' :: cs', ?_, ?_⟩
          · simp only [Except.map] at hfold
            simp only [Clause.toDictList, Clause.toDict, List.foldlM_cons, hchild,
              Except.map, bind, Except.bind]
            rw [hfold]
            simp
          · simp [Clause.toDictList, Clause.toDict, hdict, hdicts]

/-- One top-level well-formed clause round trips through the `clauses` loop
of `UnarySelectQuery.from_dict`: the rebuilt clause is handed to `add`, has
the same semantic key and keyword status, and carries a subject. -/
theorem addClauseFromDict_roundtrip (qa : UnarySelectQuery) (c : Clause) (nn : Nat)
    (hwf : Clause.WFb c = true) :
    ∃ c' nn', UnarySelectQuery.addClauseFromDict qa (DVal.d (c.toDict "latest")) nn =
        .ok (qa.addSingle c', nn') ∧
      Clause.semKey c' = Clause.semKey c ∧
      isKeywordAtomic c' = isKeywordAtomic c ∧
      (Clause.getSubject c').isNone = false := by
  match c with
  | .atomic a =>
      have hwa : a.WF = true := hwf
      have hsub : subjectWF a.subject = true := by
        simp only [AtomicClause.WF, Bool.and_eq_true] at hwa
        exact hwa.1.1.1
      have htr : optTermTruthy a.subject = true := subjectWF_truthy _ hsub
      obtain ⟨a', hfd, hdict, hsubj, hmeth⟩ := atomic_fromDict_roundtrip a nn hwf
      refine ⟨.atomic a', nn, ?_, ?_, ?_, ?_⟩
      · unfold UnarySelectQuery.addClauseFromDict
        simp [Clause.toDict, childSubject, dget_toDict_subject a "latest" htr,
          dvalToSubjTerm, dgetD, dget_toDict_type_latest, hfd, Except.map]
      · simp [Clause.semKey, Clause.toDict, hdict]
      · simp [isKeywordAtomic, hmeth]
      · simp [Clause.getSubject, hsubj, subjectWF_isSome _ hsub]
  | .conj s cs o =>
      have hcs : cs.all Clause.isAtomicWF = true := hwf
      obtain ⟨cs', hfold, hdicts⟩ :=
        compositeChildren_roundtrip cs (some qa.subject) [] (nn + 1) hcs
      refine ⟨.conj (some qa.subject) cs' o, nn + 1, ?_, ?_, rfl, rfl⟩
      · unfold UnarySelectQuery.addClauseFromDict ConjunctiveClause.fromDict
          compositeChildrenFromDict
        rw [conj_toDict_shape]
        simp only [Except.map] at hfold
        cases o <;>
          simp [childSubject, dget, dgetD, mkConjunctiveClause, compositeSubject,
            optTermTruthy, hfold, Except.map, DVal.pyBool, DVal.truthy, bind, Except.bind]
      · simp [Clause.semKey, conj_toDict_shape, hdicts]
  | .disj s cs o =>
      have hcs : cs.all Clause.isAtomicWF = true := hwf
      cases s with
      | none =>
          obtain ⟨cs', hfold, hdicts⟩ :=
            compositeChildren_roundtrip cs (dvalToSubjTerm DVal.null) [] (nn + 1) hcs
          refine ⟨.disj (some (.var (freshVarName nn))) cs' false, nn + 1, ?_, ?_, rfl, rfl⟩
          · unfold UnarySelectQuery.addClauseFromDict DisjunctiveClause.fromDict
              compositeChildrenFromDict
            rw [disj_toDict_shape]
            simp only [Except.map] at hfold
            simp [childSubject, dget, dgetD, mkDisjunctiveClause, compositeSubject,
              optTermTruthy, validateUnionClauses, hfold, Except.map, bind, Except.bind]
          · simp [Clause.semKey, disj_toDict_shape, dictRemove, List.filter, hdicts]
      | some t =>
          obtain ⟨cs', hfold, hdicts⟩ :=
            compositeChildren_roundtrip cs (dvalToSubjTerm (DVal.s t.pyStr)) [] (nn + 1) hcs
          refine ⟨.disj (some (.var (freshVarName nn))) cs' false, nn + 1, ?_, ?_, rfl, rfl⟩
          · unfold UnarySelectQuery.addClauseFromDict DisjunctiveClause.fromDict
              compositeChildrenFromDict
            rw [disj_toDict_shape]
            simp only [Except.map] at hfold
            simp [childSubject, dget, dgetD, mkDisjunctiveClause, compositeSubject,
              optTermTruthy, validateUnionClauses, hfold, Except.map, bind, Except.bind]
          · simp [Clause.semKey, disj_toDict_shape, dictRemove, List.filter, hdicts]

theorem bool_not_true {b : Bool} (h : (!b) = true) : b = false := by
  cases b
  · rfl
  · exact absurd h (by simp)

theorem addSingle_empty (qa : UnarySelectQuery) (c : Clause)
    (h : (Clause.getSubject c).isNone = false) (hq : qa.clauses = []) :
    qa.addSingle c = { qa with clauses := [c] } := by
  unfold UnarySelectQuery.addSingle SelectQuery.addClause
  by_cases hk : isKeywordAtomic c <;> simp [h, hk, hq]

/-- The `for clause_data in val` loop over serialized well-formed non-keyword
clauses appends the rebuilt clauses in order, preserving semantic keys. -/
theorem clausesFold_roundtrip (cs : List Clause) :
    ∀ (qa : UnarySelectQuery) (nn : Nat),
    cs.all Clause.WFb = true →
    cs.all (fun c => !isKeywordAtomic c) = true →
    ∃ cs' nn', ((cs.map (fun c => DVal.d (c.toDict "latest"))).foldlM
        (fun acc item => (UnarySelectQuery.addClauseFromDict acc.1 item acc.2).map
          (fun p => (p.1, p.2))) (qa, nn)) =
        .ok ({ qa with clauses := qa.clauses ++ cs' }, nn') ∧
      cs'.map Clause.semKey = cs.map Clause.semKey := by
  induction cs with
  | nil =>
      intro qa nn _ _
      exact ⟨[], nn, by simp [pure, Except.pure], rfl⟩
  | cons c rest ih =>
      intro qa nn hwf hkw
      simp only [List.all_cons, Bool.and_eq_true] at hwf hkw
      obtain ⟨c', nn1, heq, hsem, hkweq, hsubne⟩ :=
        addClauseFromDict_roundtrip qa c nn hwf.1
      have hkwc : isKeywordAtomic c' = false := hkweq.trans (bool_not_true hkw.1)
      have hadd : qa.addSingle c' = { qa with clauses := qa.clauses ++ [c'] } :=
        addSingle_append qa c' hsubne hkwc
      obtain ⟨cs'', nn2, hrest, hsems⟩ :=
        ih { qa with clauses := qa.clauses ++ [c'] } nn1 hwf.2 hkw.2
      refine ⟨c' :: cs'', nn2, ?_, ?_⟩
      · simp only [Except.map] at hrest
        simp only [List.map_cons, List.foldlM_cons, heq, Except.map, bind, Except.bind,
          hadd]
        rw [hrest]
        simp
      · simp [hsem, hsems]

theorem toDictQ_latest_shape (q : UnarySelectQuery) :
    q.toDict "latest" =
      [("subject", DVal.s q.subject.pyStr),
       ("clauses", DVal.l (q.clauses.map (fun c => DVal.d (c.toDict "latest")))),
       ("graph", DVal.s q.graph), ("limit", DVal.i q.limit), ("lang", DVal.s q.lang)] ++
      (match q.min_score with
       | some r => if r != 0 then [("min_score", DVal.r r)] else []
       | none => []) := by
  unfold UnarySelectQuery.toDict
  repeat' split
  all_goals simp_all [dinsert]

theorem newIdStr_of_WF (t : Term) (h : queryTermWF t = true) :
    newIdStr t.pyStr = .ok t := by
  cases t with
  | id s =>
      have hq : pyStartsWith s "?" = false := by simpa [queryTermWF] using h
      simp [newIdStr, Term.pyStr, hq]
  | var s =>
      have hq : pyStartsWith s "?" = true ∧ varPatternQ s = true := by
        simpa [queryTermWF] using h
      simp [newIdStr, Term.pyStr, hq.1, hq.2, mkVariableNamed, Except.map]
  | val s => simp [queryTermWF] at h

theorem fromDictStep_subject (q : UnarySelectQuery) (n : Nat) (logs : List String)
    (s : String) :
    UnarySelectQuery.fromDictStep (q, n, logs) ("subject", DVal.s s) =
      (newIdStr s).map (fun t => ({ q with subject := t }, n, logs)) := rfl

theorem fromDictStep_clauses (q : UnarySelectQuery) (n : Nat) (logs : List String)
    (items : List DVal) :
    UnarySelectQuery.fromDictStep (q, n, logs) ("clauses", DVal.l items) =
      (items.foldlM (fun acc item =>
          (UnarySelectQuery.addClauseFromDict acc.1 item acc.2).map
            (fun p => (p.1, p.2)))
        (q, n)).map (fun p => (p.1, p.2, logs)) := rfl

theorem fromDictStep_graph (q : UnarySelectQuery) (n : Nat) (logs : List String)
    (s : String) :
    UnarySelectQuery.fromDictStep (q, n, logs) ("graph", DVal.s s) =
      .ok ({ q with graph := s }, n, logs) := rfl

theorem fromDictStep_limit (q : UnarySelectQuery) (n : Nat) (logs : List String)
    (k : Int) :
    UnarySelectQuery.fromDictStep (q, n, logs) ("limit", DVal.i k) =
      .ok ({ q with limit := k }, n, logs) := rfl

theorem fromDictStep_lang (q : UnarySelectQuery) (n : Nat) (logs : List String)
    (s : String) :
    UnarySelectQuery.fromDictStep (q, n, logs) ("lang", DVal.s s) =
      .ok ({ q with lang := s }, n, logs) := rfl

theorem fromDictStep_minscore (q : UnarySelectQuery) (n : Nat) (logs : List String)
    (r : Rat) :
    UnarySelectQuery.fromDictStep (q, n, logs) ("min_score", DVal.r r) =
      .ok ({ q with min_score := some r }, n, logs) := rfl

/-- C2 (amended): for every round-trip well-formed query, deserializing the
`"latest"` serialization succeeds and reconstructs a query with the same
subject, graph, limit, lang and min_score, and the same clause list up to
semantic keys (a union clause's own subject entry is not restored by
`DisjunctiveClause.from_dict`, so clause identity is compared on the
serialized form with union subjects erased). -/
theorem C2_roundtrip_latest (q : UnarySelectQuery) (n : Nat) (hwf : q.WF = true) :
    ∃ q' n' logs, UnarySelectQuery.new (q.toDict "latest") n = .ok (q', n', logs) ∧
      q'.subject = q.subject ∧ q'.graph = q.graph ∧ q'.limit = q.limit ∧
      q'.lang = q.lang ∧ q'.min_score = q.min_score ∧
      q'.clauses.map Clause.semKey = q.clauses.map Clause.semKey := by
  simp only [UnarySelectQuery.WF, Bool.and_eq_true] at hwf
  obtain ⟨⟨⟨hA, hB⟩, hC⟩, hD⟩ := hwf
  have hsubj : newIdStr q.subject.pyStr = .ok q.subject := newIdStr_of_WF q.subject hA
  have hclfold : ∃ cls' nn2,
      ((q.clauses.map (fun c => DVal.d (c.toDict "latest"))).foldlM
        (fun acc item => (UnarySelectQuery.addClauseFromDict acc.1 item acc.2).map
          (fun p => (p.1, p.2)))
        ({ UnarySelectQuery.default with subject := q.subject }, n)) =
      .ok ({ { UnarySelectQuery.default with subject := q.subject } with clauses := cls' },
        nn2) ∧
      cls'.map Clause.semKey = q.clauses.map Clause.semKey := by
    rcases hcl : q.clauses with _ | ⟨c0, rest⟩
    · exact ⟨[], n, by simp [pure, Except.pure, UnarySelectQuery.default], by simp⟩
    · rw [hcl] at hB hC
      simp only [List.all_cons, Bool.and_eq_true] at hB
      have hCrest : rest.all (fun c => !isKeywordAtomic c) = true := hC
      obtain ⟨c0', nn1, heq0, hsem0, hkw0, hsub0⟩ :=
        addClauseFromDict_roundtrip
          { UnarySelectQuery.default with subject := q.subject } c0 n hB.1
      have h01 :
          ({ UnarySelectQuery.default with subject := q.subject } :
            UnarySelectQuery).addSingle c0' =
          { { UnarySelectQuery.default with subject := q.subject } with
              clauses := [c0'] } :=
        addSingle_empty _ c0' hsub0 rfl
      obtain ⟨cs'', nn2, hrest, hsems⟩ :=
        clausesFold_roundtrip rest
          { { UnarySelectQuery.default with subject := q.subject } with clauses := [c0'] }
          nn1 hB.2 hCrest
      refine ⟨c0' :: cs'', nn2, ?_, ?_⟩
      · simp only [Except.map] at hrest
        simp only [List.map_cons, List.foldlM_cons, heq0, Except.map, bind, Except.bind,
          h01]
        rw [hrest]
        simp
      · simp [hsem0, hsems]
  obtain ⟨cls', nn2, hfold, hsemeq⟩ := hclfold
  simp only [Except.map, UnarySelectQuery.default] at hfold
  unfold UnarySelectQuery.new UnarySelectQuery.fromDict
  rw [toDictQ_latest_shape]
  rcases hms : q.min_score with _ | r
  · refine ⟨⟨⟨DEFAULT_PREFIXES, cls', q.graph, q.limit, q.lang, none⟩, q.subject⟩,
      nn2, [], ?_, rfl, rfl, rfl, rfl, rfl, hsemeq⟩
    simp only [List.append_nil, List.foldlM_cons, List.foldlM_nil,
      fromDictStep_subject, fromDictStep_clauses, fromDictStep_graph,
      fromDictStep_limit, fromDictStep_lang, hsubj, hfold, Except.map,
      bind, Except.bind, pure, Except.pure, Except.mapError,
      UnarySelectQuery.default]
  · rw [hms] at hD
    have hD2 : (r != 0) = true := hD
    refine ⟨⟨⟨DEFAULT_PREFIXES, cls', q.graph, q.limit, q.lang, some r⟩, q.subject⟩,
      nn2, [], ?_, rfl, rfl, rfl, rfl, rfl, hsemeq⟩
    simp only [hD2, if_true, List.cons_append, List.nil_append, List.foldlM_cons,
      List.foldlM_nil, fromDictStep_subject, fromDictStep_clauses, fromDictStep_graph,
      fromDictStep_limit, fromDictStep_lang, fromDictStep_minscore, hsubj, hfold,
      Except.map, bind, Except.bind, pure, Except.pure, Except.mapError,
      UnarySelectQuery.default]

/-- C2 (counterexample): the claimed round trip fails for version
`"v1.0.0"`: that serialization omits the `subject` entry, so deserializing
it leaves the default `?_subj` variable where the original query had the
`Identifier` subject. -/
theorem C2_counterexample :
    (UnarySelectQuery.new (aliceBase.toDict "v1.0.0") 0).map (fun p => p.1.subject) =
      .ok (.var ("?" ++ SUBJVAR)) ∧
    aliceBase.subject = .id "http://ex.org/alice" ∧
    Term.var ("?" ++ SUBJVAR) ≠ Term.id "http://ex.org/alice" :=
  ⟨rfl, rfl, by decide⟩

/-- C2 (witness): the amended round trip at a concrete well-formed query
with an atomic clause, a union clause, custom graph/limit/lang and a
non-zero minimum score. -/
theorem C2_witness :
    c2Query.WF = true ∧
    (∃ q' n' logs, UnarySelectQuery.new (c2Query.toDict "latest") 0 = .ok (q', n', logs) ∧
      q'.subject = c2Query.subject ∧ q'.graph = c2Query.graph ∧
      q'.limit = c2Query.limit ∧ q'.lang = c2Query.lang ∧
      q'.min_score = c2Query.min_score ∧
      q'.clauses.map Clause.semKey = c2Query.clauses.map Clause.semKey) :=
  ⟨by decide, C2_roundtrip_latest c2Query 0 (by decide)⟩

/-- C6 (counterexample): a clause carrying both a `Value` argument and an
explicit variable serializes with two argument-carrying keys (`value` and
`variable`), refuting the claim that exactly one of
`value`/`variable`/`identifier` appears. -/
theorem C6_counterexample :
    countArgKeys (c6Clause.toDict "latest") = 2 ∧
    dget (c6Clause.toDict "latest") "value" = some (DVal.s "a") ∧
    dget (c6Clause.toDict "latest") "variable" = some (DVal.s "?v") :=
  ⟨rfl, rfl, rfl⟩
